import Mathlib

set_option autoImplicit false

/-!
Verification of the ledger-consistency core of the `digicap-git` Discord
economy bot (`bot.py`).  The Python source keeps all state in a SQLite
database; we embed the relevant tables as lists of rows and each money
operation as a pure function from a database state to a database state
plus a result.  Python floats are modelled as exact rationals (`ℚ`),
ISO date strings (`'%Y-%m-%d'`, compared lexicographically in the
source) as integer day numbers, and SQL `UPDATE ... WHERE` as a map over
the row list together with the statement's row count.  Display-only
columns (usernames, free-text purposes, timestamps) that no money logic
reads are omitted from the row types; transaction descriptions are kept
but built without the source's numeric `:.2f` formatting.
-/

namespace EconomyBot

/-- The two wallet currency columns of the `users` table
(`gold_dinars`, `silver_dirhams`). -/
inductive Currency
  | gold
  | silver
deriving DecidableEq, Repr

/-- A row of the `users` table: `user_id` (TEXT PRIMARY KEY) and the two
balance columns.  Display columns (`username`, zakat/charity fields) are
omitted. -/
structure User where
  userId : String
  gold : ℚ
  silver : ℚ
deriving DecidableEq, Repr

/-- A row of the `transactions` table:
`(user_id, transaction_type, amount, currency, description, partner_id)`.
The `currency` column is free text in the source (it also stores
`'system'` and `'gold_to_silver'`), so it stays a `String` here. -/
structure Txn where
  userId : String
  txnType : String
  amount : ℚ
  currency : String
  description : String
  partnerId : Option String
deriving DecidableEq, Repr

/-- A row of the `loan_applications` table (display columns omitted;
`due_date` is a day number). -/
structure LoanApp where
  id : Nat
  borrowerId : String
  loanAmount : ℚ
  currency : Currency
  dueDate : Int
  status : String
  fundedBy : Option String
deriving DecidableEq, Repr

/-- A row of the `loans` table. -/
structure Loan where
  id : Nat
  lenderId : String
  borrowerId : String
  loanAmount : ℚ
  currency : Currency
  dueDate : Int
  repaidAmount : ℚ
  status : String
deriving DecidableEq, Repr

/-- A row of the `bank_accounts` table. -/
structure BankAccount where
  id : Nat
  accountNumber : String
  institutionId : Nat
  ownerId : String
  accountType : String
  currency : Currency
  balance : ℚ
  profitShareRatio : Option ℚ
  status : String
deriving DecidableEq, Repr

/-- A row of the `bank_ledger` table. -/
structure BankEntry where
  accountId : Nat
  entryType : String
  amount : ℚ
  currency : Currency
  description : String
  counterpartyId : Option Nat
  createdBy : String
deriving DecidableEq, Repr

/-- A row of the `bank_account_permissions` table. -/
structure BankPerm where
  accountId : Nat
  userId : String
  role : String
deriving DecidableEq, Repr

/-- A row of the `businesses` table (only the columns the banking and
reset code reads). -/
structure Business where
  id : Nat
  userId : String
  businessType : String
  status : String
  licenseCode : Option String
deriving DecidableEq, Repr

/-- A row of the `investments` table (only the columns the reset code
reads). -/
structure Investment where
  userId : String
  status : String
deriving DecidableEq, Repr

/-- A row of the `marketplace` table (only the column the reset code
reads). -/
structure Listing where
  sellerId : String
deriving DecidableEq, Repr

/-- The database state: one list of rows per table. -/
structure DB where
  users : List User
  transactions : List Txn
  loanApps : List LoanApp
  loans : List Loan
  bankAccounts : List BankAccount
  bankLedger : List BankEntry
  bankPerms : List BankPerm
  businesses : List Business
  investments : List Investment
  marketplace : List Listing
deriving DecidableEq, Repr

/-- Read one currency column of a `users` row. -/
def bal (u : User) : Currency → ℚ
  | .gold => u.gold
  | .silver => u.silver

/-- Write one currency column of a `users` row. -/
def setBal (u : User) : Currency → ℚ → User
  | .gold, v => { u with gold := v }
  | .silver, v => { u with silver := v }

/-- The source interpolates the validated currency name into the SQL
column position; both handlers accept exactly `'gold_dinars'` and
`'silver_dirhams'`. -/
def currencyOfString (s : String) : Currency :=
  if s = "gold_dinars" then .gold else .silver

/-- The currency name written back into `transactions.currency`. -/
def currencyStr : Currency → String
  | .gold => "gold_dinars"
  | .silver => "silver_dirhams"

/-- `validate_user_id`: a Discord user id is a numeric string of 17-19
digits. -/
def validate_user_id (u : String) : Bool :=
  u.data.all Char.isDigit && decide (17 ≤ u.length) && decide (u.length ≤ 19)

/-- `validate_amount`: `0.01 <= amount <= 999999.99`. -/
def validate_amount (a : ℚ) : Bool :=
  decide ((1 : ℚ)/100 ≤ a) && decide (a ≤ (99999999 : ℚ)/100)

/-- `UPDATE users SET cur = cur - amt WHERE user_id = uid AND cur >= amt`:
the updated row list. -/
def debitRows (l : List User) (uid : String) (c : Currency) (amt : ℚ) : List User :=
  l.map fun u => if u.userId = uid ∧ amt ≤ bal u c then setBal u c (bal u c - amt) else u

/-- The row count of the guarded debit `UPDATE`: how many rows matched
its `WHERE` clause. -/
def debitCount (l : List User) (uid : String) (c : Currency) (amt : ℚ) : Nat :=
  (l.map fun u => if u.userId = uid ∧ amt ≤ bal u c then 1 else 0).sum

/-- `UPDATE users SET cur = cur + amt WHERE user_id = uid`: the updated
row list. -/
def creditRows (l : List User) (uid : String) (c : Currency) (amt : ℚ) : List User :=
  l.map fun u => if u.userId = uid then setBal u c (bal u c + amt) else u

/-- The row count of the credit `UPDATE`. -/
def creditCount (l : List User) (uid : String) : Nat :=
  (l.map fun u => if u.userId = uid then 1 else 0).sum

/-- Typed failure results of the `POST /api/pay` handler
(`transfer_money`).  Authentication and JSON-shape failures are outside
the data model and omitted.  `insufficientFunds` is the handler's
`'Insufficient funds or user not found'` response. -/
inductive PayErr
  | invalidUserId
  | invalidAmount
  | invalidCurrency
  | selfTransfer
  | insufficientFunds
  | recipientNotFound
deriving DecidableEq, Repr

/-- The `POST /api/pay` handler `transfer_money`: validation, an atomic
guarded debit, a credit, and two `transactions` rows, all inside one
transaction; any failure rolls the transaction back, so error results
return the incoming state unchanged. -/
def transfer_money (db : DB) (fromUser toUser : String) (amount : ℚ)
    (currency : String) : DB × Option PayErr :=
  if ¬ (validate_user_id fromUser && validate_user_id toUser) then
    (db, some .invalidUserId)
  else if ¬ validate_amount amount then (db, some .invalidAmount)
  else if ¬ (currency = "gold_dinars" ∨ currency = "silver_dirhams") then
    (db, some .invalidCurrency)
  else if fromUser = toUser then (db, some .selfTransfer)
  else if debitCount db.users fromUser (currencyOfString currency) amount = 0 then
    (db, some .insufficientFunds)
  else if creditCount (debitRows db.users fromUser (currencyOfString currency) amount) toUser = 0 then
    (db, some .recipientNotFound)
  else
    ({ db with
        users := creditRows (debitRows db.users fromUser (currencyOfString currency) amount)
          toUser (currencyOfString currency) amount,
        transactions := db.transactions ++
          [⟨fromUser, "transfer_send", amount, currency, "Minecraft transfer", some toUser⟩,
           ⟨toUser, "transfer_receive", amount, currency, "Minecraft transfer", some fromUser⟩] },
     none)

/-- The balance contribution of the rows with a given `user_id` (there
is at most one such row when `user_id`s are nodup, as the PRIMARY KEY
guarantees). -/
def sumFor (l : List User) (uid : String) (c : Currency) : ℚ :=
  (l.map fun u => if u.userId = uid then bal u c else 0).sum

/-- A user's balance in one currency. -/
def walletBal (db : DB) (uid : String) (c : Currency) : ℚ :=
  sumFor db.users uid c

/-- The system-wide total of one currency over the `users` table. -/
def totalBal (db : DB) (c : Currency) : ℚ :=
  (db.users.map fun u => bal u c).sum

section UpdateLemmas

variable (uid v : String) (c : Currency) (amt : ℚ)

theorem bal_setBal (u : User) (c : Currency) (x : ℚ) : bal (setBal u c x) c = x := by
  cases c <;> simp [bal, setBal]

theorem userId_setBal (u : User) (c : Currency) (x : ℚ) :
    (setBal u c x).userId = u.userId := by
  cases c <;> simp [setBal]

theorem sum_debitRows (l : List User) :
    ((debitRows l uid c amt).map fun u => bal u c).sum =
      (l.map fun u => bal u c).sum - amt * debitCount l uid c amt := by
  induction l with
  | nil => simp [debitRows, debitCount]
  | cons u t ih =>
      simp only [debitRows, debitCount, List.map_cons, List.sum_cons] at ih ⊢
      by_cases h : u.userId = uid ∧ amt ≤ bal u c
      · simp only [if_pos h, bal_setBal]
        rw [ih]; push_cast; ring
      · simp only [if_neg h]
        rw [ih]; push_cast; ring

theorem sumFor_debitRows (l : List User) :
    sumFor (debitRows l uid c amt) uid c = sumFor l uid c - amt * debitCount l uid c amt := by
  induction l with
  | nil => simp [debitRows, debitCount, sumFor]
  | cons u t ih =>
      simp only [debitRows, debitCount, sumFor, List.map_cons, List.sum_cons] at ih ⊢
      by_cases h : u.userId = uid ∧ amt ≤ bal u c
      · simp only [if_pos h, userId_setBal, if_pos h.1, bal_setBal]
        rw [ih]; push_cast; ring
      · by_cases hu : u.userId = uid
        · simp only [if_neg h, if_pos hu]
          rw [ih]; push_cast; ring
        · simp only [if_neg h, if_neg hu]
          rw [ih]; push_cast; ring

theorem sumFor_debitRows_ne (l : List User) (hne : v ≠ uid) :
    sumFor (debitRows l uid c amt) v c = sumFor l v c := by
  induction l with
  | nil => simp [debitRows, sumFor]
  | cons u t ih =>
      simp only [debitRows, sumFor, List.map_cons, List.sum_cons] at ih ⊢
      by_cases h : u.userId = uid ∧ amt ≤ bal u c
      · have hv2 : ¬ u.userId = v := by rw [h.1]; exact fun hh => hne hh.symm
        simp only [if_pos h, userId_setBal, if_neg hv2]
        rw [ih]
      · simp only [if_neg h]
        rw [ih]

theorem sum_creditRows (l : List User) :
    ((creditRows l uid c amt).map fun u => bal u c).sum =
      (l.map fun u => bal u c).sum + amt * creditCount l uid := by
  induction l with
  | nil => simp [creditRows, creditCount]
  | cons u t ih =>
      simp only [creditRows, creditCount, List.map_cons, List.sum_cons] at ih ⊢
      by_cases h : u.userId = uid
      · simp only [if_pos h, bal_setBal]
        rw [ih]; push_cast; ring
      · simp only [if_neg h]
        rw [ih]; push_cast; ring

theorem sumFor_creditRows (l : List User) :
    sumFor (creditRows l uid c amt) uid c = sumFor l uid c + amt * creditCount l uid := by
  induction l with
  | nil => simp [creditRows, creditCount, sumFor]
  | cons u t ih =>
      simp only [creditRows, creditCount, sumFor, List.map_cons, List.sum_cons] at ih ⊢
      by_cases h : u.userId = uid
      · simp only [if_pos h, userId_setBal, bal_setBal]
        rw [ih]; push_cast; ring
      · simp only [if_neg h]
        rw [ih]; push_cast; ring

theorem sumFor_creditRows_ne (l : List User) (hne : v ≠ uid) :
    sumFor (creditRows l uid c amt) v c = sumFor l v c := by
  induction l with
  | nil => simp [creditRows, sumFor]
  | cons u t ih =>
      simp only [creditRows, sumFor, List.map_cons, List.sum_cons] at ih ⊢
      by_cases h : u.userId = uid
      · have hv2 : ¬ u.userId = v := by rw [h]; exact fun hh => hne hh.symm
        simp only [if_pos h, userId_setBal, if_neg hv2]
        rw [ih]
      · simp only [if_neg h]
        rw [ih]

theorem map_userId_debitRows (l : List User) :
    (debitRows l uid c amt).map User.userId = l.map User.userId := by
  induction l with
  | nil => rfl
  | cons u t ih =>
      simp only [debitRows, List.map_cons] at ih ⊢
      by_cases h : u.userId = uid ∧ amt ≤ bal u c
      · simp only [if_pos h, userId_setBal]
        rw [ih]
      · simp only [if_neg h]
        rw [ih]

theorem debitCount_of_not_mem (l : List User) (h : uid ∉ l.map User.userId) :
    debitCount l uid c amt = 0 := by
  induction l with
  | nil => rfl
  | cons u t ih =>
      simp only [List.map_cons, List.mem_cons, not_or] at h
      have hu : ¬ (u.userId = uid ∧ amt ≤ bal u c) := fun hh => h.1 hh.1.symm
      simp only [debitCount, List.map_cons, List.sum_cons, if_neg hu]
      simpa [debitCount] using ih h.2

theorem creditCount_of_not_mem (l : List User) (h : uid ∉ l.map User.userId) :
    creditCount l uid = 0 := by
  induction l with
  | nil => rfl
  | cons u t ih =>
      simp only [List.map_cons, List.mem_cons, not_or] at h
      have hu : ¬ u.userId = uid := fun hh => h.1 hh.symm
      simp only [creditCount, List.map_cons, List.sum_cons, if_neg hu]
      simpa [creditCount] using ih h.2

theorem sumFor_of_not_mem (l : List User) (h : uid ∉ l.map User.userId) :
    sumFor l uid c = 0 := by
  induction l with
  | nil => rfl
  | cons u t ih =>
      simp only [List.map_cons, List.mem_cons, not_or] at h
      have hu : ¬ u.userId = uid := fun hh => h.1 hh.symm
      simp only [sumFor, List.map_cons, List.sum_cons, if_neg hu]
      simpa [sumFor] using ih h.2

theorem debitCount_le_one (l : List User) (hnd : (l.map User.userId).Nodup) :
    debitCount l uid c amt ≤ 1 := by
  induction l with
  | nil => simp [debitCount]
  | cons u t ih =>
      simp only [List.map_cons, List.nodup_cons] at hnd
      simp only [debitCount, List.map_cons, List.sum_cons]
      by_cases h : u.userId = uid ∧ amt ≤ bal u c
      · have h0 : debitCount t uid c amt = 0 :=
          debitCount_of_not_mem uid c amt t (h.1 ▸ hnd.1)
        simp only [debitCount] at h0
        rw [if_pos h, h0]
      · rw [if_neg h]
        simpa [debitCount] using ih hnd.2

theorem creditCount_le_one (l : List User) (hnd : (l.map User.userId).Nodup) :
    creditCount l uid ≤ 1 := by
  induction l with
  | nil => simp [creditCount]
  | cons u t ih =>
      simp only [List.map_cons, List.nodup_cons] at hnd
      simp only [creditCount, List.map_cons, List.sum_cons]
      by_cases h : u.userId = uid
      · have h0 : creditCount t uid = 0 :=
          creditCount_of_not_mem uid t (h ▸ hnd.1)
        simp only [creditCount] at h0
        rw [if_pos h, h0]
      · rw [if_neg h]
        simpa [creditCount] using ih hnd.2

/-- With nodup `user_id`s, a balance below the debit amount means the
guarded debit matches no row. -/
theorem debitCount_eq_zero_of_lt (l : List User) (hnd : (l.map User.userId).Nodup)
    (hlt : sumFor l uid c < amt) : debitCount l uid c amt = 0 := by
  induction l with
  | nil => rfl
  | cons u t ih =>
      simp only [List.map_cons, List.nodup_cons] at hnd
      simp only [sumFor, List.map_cons, List.sum_cons] at hlt
      simp only [debitCount, List.map_cons, List.sum_cons]
      by_cases hu : u.userId = uid
      · have h0 : sumFor t uid c = 0 := sumFor_of_not_mem uid c t (hu ▸ hnd.1)
        simp only [sumFor] at h0
        rw [if_pos hu, h0, add_zero] at hlt
        have h1 : ¬ (u.userId = uid ∧ amt ≤ bal u c) := fun hh => absurd hh.2 (not_le.mpr hlt)
        rw [if_neg h1]
        have h2 : debitCount t uid c amt = 0 :=
          debitCount_of_not_mem uid c amt t (hu ▸ hnd.1)
        simpa [debitCount] using h2
      · rw [if_neg hu] at hlt
        have h1 : ¬ (u.userId = uid ∧ amt ≤ bal u c) := fun hh => hu hh.1
        rw [if_neg h1, zero_add]
        have := ih hnd.2 (by simpa [sumFor] using hlt)
        simpa [debitCount] using this

/-- With nodup `user_id`s, a positive amount at most the balance means
the guarded debit matches a row. -/
theorem debitCount_ne_zero_of_le (l : List User) (hnd : (l.map User.userId).Nodup)
    (hpos : 0 < amt) (hle : amt ≤ sumFor l uid c) : debitCount l uid c amt ≠ 0 := by
  induction l with
  | nil =>
      simp only [sumFor, List.map_nil, List.sum_nil] at hle
      exact absurd (lt_of_lt_of_le hpos hle) (lt_irrefl 0)
  | cons u t ih =>
      simp only [List.map_cons, List.nodup_cons] at hnd
      simp only [sumFor, List.map_cons, List.sum_cons] at hle
      simp only [debitCount, List.map_cons, List.sum_cons]
      by_cases hu : u.userId = uid
      · have h0 : sumFor t uid c = 0 := sumFor_of_not_mem uid c t (hu ▸ hnd.1)
        simp only [sumFor] at h0
        rw [if_pos hu, h0, add_zero] at hle
        rw [if_pos ⟨hu, hle⟩]
        omega
      · rw [if_neg hu, zero_add] at hle
        have h1 : ¬ (u.userId = uid ∧ amt ≤ bal u c) := fun hh => hu hh.1
        rw [if_neg h1, zero_add]
        exact ih hnd.2 (by simpa [sumFor] using hle)

end UpdateLemmas

/-- `UPDATE users SET col = v WHERE user_id = uid` (absolute write of a
computed new balance, as `fund_loan`, `repay_loan` and the bank
operations do on the caller's row). -/
def setRows (l : List User) (uid : String) (c : Currency) (v : ℚ) : List User :=
  l.map fun u => if u.userId = uid then setBal u c v else u

/-- `get_user_account`: reads the caller's row, lazily creating it with
the fixed starting balances 100 gold / 500 silver; an invalid id gets a
zero-balance placeholder dict and no row.  The creation commits on its
own connection, independently of any caller transaction. -/
def get_user_account (db : DB) (uid : String) : DB × User :=
  if validate_user_id uid = false then (db, ⟨uid, 0, 0⟩)
  else
    match db.users.find? (fun u => decide (u.userId = uid)) with
    | some u => (db, u)
    | none => ({ db with users := db.users ++ [⟨uid, 100, 500⟩] }, ⟨uid, 100, 500⟩)

/-- `AUTOINCREMENT` id for a fresh row. -/
def nextId (l : List Nat) : Nat := l.foldr max 0 + 1

/-- Typed failures of the `/fund_loan` command. -/
inductive FundErr
  | notFound
  | selfFunding
  | insufficientFunds
deriving DecidableEq, Repr

/-- `fund_loan`: fund a pending loan application.  A missing or
non-`'pending'` application yields the single
`'Loan application not found or already funded.'` error before anything
is read or written.  On success the lender is debited (absolute write of
the pre-read balance minus the amount), the borrower credited, a loan
row in status `'active'` with `repaid_amount = 0` created, the
application marked `'funded'`, and `loan_given`/`loan_received`
transaction rows appended.  (Display names in the descriptions are
omitted from the model.) -/
def fund_loan (db : DB) (lender : String) (appId : Nat) : DB × Option FundErr :=
  match db.loanApps.find? (fun a => decide (a.id = appId ∧ a.status = "pending")) with
  | none => (db, some .notFound)
  | some app =>
    if app.borrowerId = lender then (db, some .selfFunding)
    else
      match get_user_account db lender with
      | (db1, userData) =>
        if bal userData app.currency < app.loanAmount then (db1, some .insufficientFunds)
        else
          ({ db1 with
              users := creditRows
                (setRows db1.users lender app.currency (bal userData app.currency - app.loanAmount))
                app.borrowerId app.currency app.loanAmount,
              loans := db1.loans ++
                [⟨nextId (db1.loans.map Loan.id), lender, app.borrowerId, app.loanAmount,
                  app.currency, app.dueDate, 0, "active"⟩],
              loanApps := db1.loanApps.map fun a =>
                if a.id = appId then { a with status := "funded", fundedBy := some lender } else a,
              transactions := db1.transactions ++
                [⟨lender, "loan_given", app.loanAmount, currencyStr app.currency,
                  "Funded loan application #" ++ toString appId, some app.borrowerId⟩,
                 ⟨app.borrowerId, "loan_received", app.loanAmount, currencyStr app.currency,
                  "Received loan funding", some lender⟩] },
           none)

/-- Typed failures of the `/repay_loan` command. -/
inductive RepayErr
  | notFound
  | notActive
  | exceedsRemaining
  | nonPositive
  | insufficientFunds
deriving DecidableEq, Repr

/-- `repay_loan`: repay part of an active loan.  The lookup requires the
caller to be the borrower; the status, outstanding-balance and
positivity checks happen before any read or write; funds move borrower
to lender, `repaid_amount` increases, and the status flips to
`'completed'` when the new repaid amount reaches the principal. -/
def repay_loan (db : DB) (borrower : String) (loanId : Nat) (amt : ℚ) :
    DB × Option RepayErr :=
  match db.loans.find? (fun l => decide (l.id = loanId ∧ l.borrowerId = borrower)) with
  | none => (db, some .notFound)
  | some loan =>
    if loan.status ≠ "active" then (db, some .notActive)
    else if loan.loanAmount - loan.repaidAmount < amt then (db, some .exceedsRemaining)
    else if amt ≤ 0 then (db, some .nonPositive)
    else
      match get_user_account db borrower with
      | (db1, userData) =>
        if bal userData loan.currency < amt then (db1, some .insufficientFunds)
        else
          ({ db1 with
              users := creditRows
                (setRows db1.users borrower loan.currency (bal userData loan.currency - amt))
                loan.lenderId loan.currency amt,
              loans := db1.loans.map fun l =>
                if l.id = loanId then
                  { l with
                    repaidAmount := loan.repaidAmount + amt,
                    status :=
                      (if loan.loanAmount ≤ loan.repaidAmount + amt then "completed"
                        else "active") }
                else l,
              transactions := db1.transactions ++
                [⟨borrower, "loan_repayment", amt, currencyStr loan.currency,
                  "Loan repayment (ID: " ++ toString loanId ++ ")", some loan.lenderId⟩,
                 ⟨loan.lenderId, "loan_repayment_received", amt, currencyStr loan.currency,
                  "Loan repayment received (ID: " ++ toString loanId ++ ")", some borrower⟩] },
           none)

/-- Typed failures of the banking operations. -/
inductive BankOpErr
  | invalidAmount
  | accountNotFound
  | permissionDenied
  | insufficientWallet
  | insufficientAccount
  | sameAccount
  | currencyMismatch
  | databaseError
deriving DecidableEq, Repr

/-- The roles accepted for deposit/withdraw/transfer permission. -/
def hasBankPermission (db : DB) (accId : Nat) (uid : String) : Bool :=
  db.bankPerms.any fun p =>
    decide (p.accountId = accId ∧ p.userId = uid ∧
      (p.role = "owner" ∨ p.role = "joint_owner" ∨ p.role = "manager"))

/-- The `bank_ledger` schema `CHECK` constraints (`entry_type` in the
enumerated set and `amount > 0`); a violating insert raises and the
enclosing transaction rolls back. -/
def insertBankEntry (db : DB) (e : BankEntry) : Option DB :=
  if 0 < e.amount ∧
      (e.entryType = "deposit" ∨ e.entryType = "withdrawal" ∨ e.entryType = "transfer_in" ∨
        e.entryType = "transfer_out" ∨ e.entryType = "profit_share" ∨
        e.entryType = "service_fee") then
    some { db with bankLedger := db.bankLedger ++ [e] }
  else none

/-- The bank-account lookup all three bank operations start with: an
`'active'` row joined against its institution's `businesses` row. -/
def findActiveAccount (db : DB) (accId : Nat) : Option BankAccount :=
  match db.bankAccounts.find? (fun a => decide (a.id = accId ∧ a.status = "active")) with
  | none => none
  | some acc =>
    match db.businesses.find? (fun b => decide (b.id = acc.institutionId)) with
    | none => none
    | some _ => some acc

/-- `bank_deposit`: move `amt` from the caller's wallet into a bank
account. -/
def bank_deposit (db : DB) (accId : Nat) (uid : String) (amt : ℚ) : DB × Option BankOpErr :=
  if amt ≤ 0 then (db, some .invalidAmount)
  else
    match findActiveAccount db accId with
    | none => (db, some .accountNotFound)
    | some acc =>
      if acc.ownerId ≠ uid ∧ hasBankPermission db accId uid = false then
        (db, some .permissionDenied)
      else
        match get_user_account db uid with
        | (db1, userData) =>
          if bal userData acc.currency < amt then (db1, some .insufficientWallet)
          else
            match insertBankEntry
                { db1 with
                  users := setRows db1.users uid acc.currency (bal userData acc.currency - amt),
                  bankAccounts := db1.bankAccounts.map fun a =>
                    if a.id = accId then { a with balance := acc.balance + amt } else a }
                ⟨accId, "deposit", amt, acc.currency, "Deposit from wallet", none, uid⟩ with
            | none => (db1, some .databaseError)
            | some db3 =>
              ({ db3 with transactions := db3.transactions ++
                  [⟨uid, "bank_deposit", amt, currencyStr acc.currency,
                    "Deposit to bank account " ++ acc.accountNumber, none⟩] },
               none)

/-- `bank_withdraw`: move `amt` from a bank account into the caller's
wallet. -/
def bank_withdraw (db : DB) (accId : Nat) (uid : String) (amt : ℚ) : DB × Option BankOpErr :=
  if amt ≤ 0 then (db, some .invalidAmount)
  else
    match findActiveAccount db accId with
    | none => (db, some .accountNotFound)
    | some acc =>
      if acc.ownerId ≠ uid ∧ hasBankPermission db accId uid = false then
        (db, some .permissionDenied)
      else if acc.balance < amt then (db, some .insufficientAccount)
      else
        match get_user_account db uid with
        | (db1, userData) =>
          match insertBankEntry
              { db1 with
                users := setRows db1.users uid acc.currency (bal userData acc.currency + amt),
                bankAccounts := db1.bankAccounts.map fun a =>
                  if a.id = accId then { a with balance := acc.balance - amt } else a }
              ⟨accId, "withdrawal", amt, acc.currency, "Withdrawal to wallet", none, uid⟩ with
          | none => (db1, some .databaseError)
          | some db3 =>
            ({ db3 with transactions := db3.transactions ++
                [⟨uid, "bank_withdrawal", amt, currencyStr acc.currency,
                  "Withdrawal from bank account " ++ acc.accountNumber, none⟩] },
             none)

/-- `bank_transfer`: move `amt` between two bank accounts of the same
currency; wallets are untouched. -/
def bank_transfer (db : DB) (fromAcc toAcc : Nat) (uid : String) (amt : ℚ) :
    DB × Option BankOpErr :=
  if amt ≤ 0 then (db, some .invalidAmount)
  else if fromAcc = toAcc then (db, some .sameAccount)
  else
    match findActiveAccount db fromAcc, findActiveAccount db toAcc with
    | some accF, some accT =>
      if accF.currency ≠ accT.currency then (db, some .currencyMismatch)
      else if accF.ownerId ≠ uid ∧ hasBankPermission db fromAcc uid = false then
        (db, some .permissionDenied)
      else if accF.balance < amt then (db, some .insufficientAccount)
      else
        match insertBankEntry
            { db with
              bankAccounts := (db.bankAccounts.map fun a =>
                  if a.id = fromAcc then { a with balance := accF.balance - amt } else a).map
                fun a => if a.id = toAcc then { a with balance := accT.balance + amt } else a }
            ⟨fromAcc, "transfer_out", amt, accF.currency,
              "Transfer to " ++ accT.accountNumber, some toAcc, uid⟩ with
        | none => (db, some .databaseError)
        | some db3 =>
          match insertBankEntry db3
              ⟨toAcc, "transfer_in", amt, accT.currency,
                "Transfer from " ++ accF.accountNumber, some fromAcc, uid⟩ with
          | none => (db, some .databaseError)
          | some db4 =>
            ({ db4 with transactions := db4.transactions ++
                [⟨uid, "bank_transfer", amt, currencyStr accF.currency,
                  "Transfer from " ++ accF.accountNumber ++ " to " ++ accT.accountNumber,
                  none⟩] },
             none)
    | _, _ => (db, some .accountNotFound)

/-- Typed failures of the `/exchange` command. -/
inductive ExchErr
  | invalidCurrency
  | sameCurrency
  | nonPositive
  | insufficientFunds
deriving DecidableEq, Repr

/-- `get_exchange_rate`: 1 gold dinar = 12 silver dirhams. -/
def get_exchange_rate : ℚ := 12

/-- `currency_exchange` (`/exchange`): swap between the caller's two
wallet balances at the fixed rate.  Currency names arrive lowercased. -/
def currency_exchange (db : DB) (uid : String) (amt : ℚ) (fromCur toCur : String) :
    DB × Option ExchErr :=
  if ¬ ((fromCur = "gold" ∨ fromCur = "silver") ∧ (toCur = "gold" ∨ toCur = "silver")) then
    (db, some .invalidCurrency)
  else if fromCur = toCur then (db, some .sameCurrency)
  else if amt ≤ 0 then (db, some .nonPositive)
  else
    match get_user_account db uid with
    | (db1, u) =>
      if fromCur = "gold" then
        if u.gold < amt then (db1, some .insufficientFunds)
        else
          ({ db1 with
              users := db1.users.map fun v =>
                if v.userId = uid then
                  { v with gold := u.gold - amt, silver := u.silver + amt * get_exchange_rate }
                else v,
              transactions := db1.transactions ++
                [⟨uid, "currency_exchange", amt, fromCur ++ "_to_" ++ toCur,
                  "Exchanged " ++ fromCur ++ " for " ++ toCur, none⟩] },
           none)
      else
        if u.silver < amt then (db1, some .insufficientFunds)
        else
          ({ db1 with
              users := db1.users.map fun v =>
                if v.userId = uid then
                  { v with gold := u.gold + amt / get_exchange_rate, silver := u.silver - amt }
                else v,
              transactions := db1.transactions ++
                [⟨uid, "currency_exchange", amt, fromCur ++ "_to_" ++ toCur,
                  "Exchanged " ++ fromCur ++ " for " ++ toCur, none⟩] },
           none)

/-- One sequentially executed money operation (claim C3's operation
set). -/
inductive Op
  | pay (fromU toU : String) (amt : ℚ) (cur : String)
  | fund (lender : String) (appId : Nat)
  | repay (borrower : String) (loanId : Nat) (amt : ℚ)
  | deposit (accId : Nat) (uid : String) (amt : ℚ)
  | withdraw (accId : Nat) (uid : String) (amt : ℚ)
  | btransfer (fromAcc toAcc : Nat) (uid : String) (amt : ℚ)
  | exchange (uid : String) (amt : ℚ) (fromCur toCur : String)

/-- Execute one operation (keeping the resulting state whether it
succeeded or failed). -/
def stepOp (db : DB) : Op → DB
  | .pay f t amt cur => (transfer_money db f t amt cur).1
  | .fund lender appId => (fund_loan db lender appId).1
  | .repay b loanId amt => (repay_loan db b loanId amt).1
  | .deposit accId uid amt => (bank_deposit db accId uid amt).1
  | .withdraw accId uid amt => (bank_withdraw db accId uid amt).1
  | .btransfer f t uid amt => (bank_transfer db f t uid amt).1
  | .exchange uid amt f t => (currency_exchange db uid amt f t).1

/-- Execute a sequence of operations. -/
def runOps (db : DB) (ops : List Op) : DB := ops.foldl stepOp db

/-- Concrete instance of `claim_C1_pay_conservation`. -/
def payDB : DB :=
  ⟨[⟨"11111111111111111", 100, 500⟩, ⟨"22222222222222222", 0, 0⟩],
   [], [], [], [], [], [], [], [], []⟩

/-- The state after the witness transfer. -/
def payDB2 : DB :=
  ⟨[⟨"11111111111111111", 70, 500⟩, ⟨"22222222222222222", 30, 0⟩],
   [⟨"11111111111111111", "transfer_send", 30, "gold_dinars", "Minecraft transfer",
     some "22222222222222222"⟩,
    ⟨"22222222222222222", "transfer_receive", 30, "gold_dinars", "Minecraft transfer",
     some "11111111111111111"⟩],
   [], [], [], [], [], [], [], []⟩

theorem validate_amount_pos {a : ℚ} (h : validate_amount a = true) : 0 < a := by
  simp only [validate_amount, Bool.and_eq_true, decide_eq_true_eq] at h
  linarith [h.1]

/-! ### The no-negative-balance invariant (claim C3) -/

/-- All rows of a `users` row list have non-negative balances. -/
def NonnegL (l : List User) : Prop := ∀ u ∈ l, 0 ≤ u.gold ∧ 0 ≤ u.silver

/-- Every account's two currency balances are non-negative. -/
def UsersNonneg (db : DB) : Prop := NonnegL db.users

/-- Every pending loan application asks for a positive amount (what
`apply_for_loan` enforces on creation). -/
def AppsPos (db : DB) : Prop :=
  ∀ a ∈ db.loanApps, a.status = "pending" → 0 < a.loanAmount

/-- The combined inductive invariant. -/
def Inv (db : DB) : Prop := UsersNonneg db ∧ AppsPos db

theorem bal_nonneg {u : User} (h : 0 ≤ u.gold ∧ 0 ≤ u.silver) (c : Currency) :
    0 ≤ bal u c := by
  cases c
  · exact h.1
  · exact h.2

theorem setBal_nonneg {u : User} {v : ℚ} (h : 0 ≤ u.gold ∧ 0 ≤ u.silver) (c : Currency)
    (hv : 0 ≤ v) : 0 ≤ (setBal u c v).gold ∧ 0 ≤ (setBal u c v).silver := by
  cases c
  · exact ⟨hv, h.2⟩
  · exact ⟨h.1, hv⟩

theorem debitRows_nonneg {l : List User} (uid : String) (c : Currency) (amt : ℚ)
    (H : NonnegL l) : NonnegL (debitRows l uid c amt) := by
  intro v hv
  rw [debitRows, List.mem_map] at hv
  obtain ⟨u, hu, rfl⟩ := hv
  by_cases h : u.userId = uid ∧ amt ≤ bal u c
  · rw [if_pos h]
    exact setBal_nonneg (H u hu) c (by linarith [h.2])
  · rw [if_neg h]
    exact H u hu

theorem creditRows_nonneg {l : List User} (uid : String) (c : Currency) {amt : ℚ}
    (hamt : 0 ≤ amt) (H : NonnegL l) : NonnegL (creditRows l uid c amt) := by
  intro v hv
  rw [creditRows, List.mem_map] at hv
  obtain ⟨u, hu, rfl⟩ := hv
  by_cases h : u.userId = uid
  · rw [if_pos h]
    exact setBal_nonneg (H u hu) c (add_nonneg (bal_nonneg (H u hu) c) hamt)
  · rw [if_neg h]
    exact H u hu

theorem setRows_nonneg {l : List User} (uid : String) (c : Currency) {v : ℚ}
    (hv : 0 ≤ v) (H : NonnegL l) : NonnegL (setRows l uid c v) := by
  intro w hw
  rw [setRows, List.mem_map] at hw
  obtain ⟨u, hu, rfl⟩ := hw
  by_cases h : u.userId = uid
  · rw [if_pos h]
    exact setBal_nonneg (H u hu) c hv
  · rw [if_neg h]
    exact H u hu

/-- What `get_user_account` guarantees: the returned row has
non-negative balances (found, freshly created with 100/500, or the
zero placeholder), non-negative balances are preserved, and only the
`users` table can change. -/
theorem get_user_account_spec (db : DB) (uid : String) (db1 : DB) (u : User)
    (h : get_user_account db uid = (db1, u)) (H : NonnegL db.users) :
    NonnegL db1.users ∧ 0 ≤ u.gold ∧ 0 ≤ u.silver ∧ db1.loanApps = db.loanApps := by
  unfold get_user_account at h
  split at h
  · obtain ⟨rfl, rfl⟩ := Prod.mk.injEq .. ▸ h
    exact ⟨H, le_refl 0, le_refl 0, rfl⟩
  · split at h
    next v hfind =>
      obtain ⟨rfl, rfl⟩ := Prod.mk.injEq .. ▸ h
      exact ⟨H, (H v (List.mem_of_find?_eq_some hfind)).1,
        (H v (List.mem_of_find?_eq_some hfind)).2, rfl⟩
    next hfind =>
      obtain ⟨rfl, rfl⟩ := Prod.mk.injEq .. ▸ h
      refine ⟨?_, by norm_num, by norm_num, rfl⟩
      intro w hw
      rcases List.mem_append.mp hw with hw | hw
      · exact H w hw
      · rcases List.mem_singleton.mp hw with rfl
        exact ⟨by norm_num, by norm_num⟩

/-- A successful `bank_ledger` insert only appends to the ledger. -/
theorem insertBankEntry_spec (db : DB) (e : BankEntry) (db3 : DB)
    (h : insertBankEntry db e = some db3) :
    db3.users = db.users ∧ db3.loanApps = db.loanApps := by
  unfold insertBankEntry at h
  split at h
  · obtain rfl := Option.some.injEq .. ▸ h
    exact ⟨rfl, rfl⟩
  · simp at h

theorem appsPos_of_eq {db1 db : DB} (h : db1.loanApps = db.loanApps) (HA : AppsPos db) :
    AppsPos db1 := fun a ha hp => HA a (h ▸ ha) hp

theorem pay_preserves (db : DB) (f t : String) (amt : ℚ) (cur : String) (H : Inv db) :
    Inv (transfer_money db f t amt cur).1 := by
  obtain ⟨HU, HA⟩ := H
  unfold transfer_money
  split_ifs with h1 h2 h3 h4 h5 h6
  all_goals try exact ⟨HU, HA⟩
  exact ⟨creditRows_nonneg _ _ (le_of_lt (validate_amount_pos h2))
    (debitRows_nonneg _ _ _ HU), HA⟩

theorem fund_preserves (db : DB) (lender : String) (appId : Nat) (H : Inv db) :
    Inv (fund_loan db lender appId).1 := by
  obtain ⟨HU, HA⟩ := H
  unfold fund_loan
  split
  next => exact ⟨HU, HA⟩
  next app hfind =>
    split
    next => exact ⟨HU, HA⟩
    next hself =>
      split
      next db1 userData hga =>
        obtain ⟨H1, hg, hs, happs⟩ := get_user_account_spec db lender db1 userData hga HU
        split
        next hbal => exact ⟨H1, appsPos_of_eq happs HA⟩
        next hbal =>
          have hfp := List.find?_some hfind
          have hpend : app.status = "pending" := (of_decide_eq_true hfp).2
          have hpos : 0 < app.loanAmount :=
            HA app (List.mem_of_find?_eq_some hfind) hpend
          refine ⟨creditRows_nonneg _ _ (le_of_lt hpos)
            (setRows_nonneg _ _ (by linarith [not_lt.mp hbal]) H1), ?_⟩
          intro a2 ha2 hp2
          rw [List.mem_map] at ha2
          obtain ⟨a, ha, rfl⟩ := ha2
          by_cases hid : a.id = appId
          · rw [if_pos hid] at hp2
            simp at hp2
          · rw [if_neg hid] at hp2 ⊢
            exact HA a (happs ▸ ha) hp2

theorem repay_preserves (db : DB) (b : String) (loanId : Nat) (amt : ℚ) (H : Inv db) :
    Inv (repay_loan db b loanId amt).1 := by
  obtain ⟨HU, HA⟩ := H
  unfold repay_loan
  split
  next => exact ⟨HU, HA⟩
  next loan hfind =>
    split
    next => exact ⟨HU, HA⟩
    next hst =>
      split
      next => exact ⟨HU, HA⟩
      next hrem =>
        split
        next => exact ⟨HU, HA⟩
        next hle =>
          split
          next db1 userData hga =>
            obtain ⟨H1, hg, hs, happs⟩ := get_user_account_spec db b db1 userData hga HU
            split
            next hbal => exact ⟨H1, appsPos_of_eq happs HA⟩
            next hbal =>
              refine ⟨creditRows_nonneg _ _ (by linarith [not_le.mp hle])
                (setRows_nonneg _ _ (by linarith [not_lt.mp hbal]) H1), ?_⟩
              exact appsPos_of_eq happs HA

theorem deposit_preserves (db : DB) (accId : Nat) (uid : String) (amt : ℚ) (H : Inv db) :
    Inv (bank_deposit db accId uid amt).1 := by
  obtain ⟨HU, HA⟩ := H
  unfold bank_deposit
  split
  next => exact ⟨HU, HA⟩
  next hle =>
    split
    next => exact ⟨HU, HA⟩
    next acc hacc =>
      split
      next => exact ⟨HU, HA⟩
      next hperm =>
        split
        next db1 userData hga =>
          obtain ⟨H1, hg, hs, happs⟩ := get_user_account_spec db uid db1 userData hga HU
          split
          next hbal => exact ⟨H1, appsPos_of_eq happs HA⟩
          next hbal =>
            split
            next hins => exact ⟨H1, appsPos_of_eq happs HA⟩
            next db3 hins =>
              obtain ⟨husers, happs3⟩ := insertBankEntry_spec _ _ _ hins
              refine ⟨?_, ?_⟩
              · show NonnegL db3.users
                rw [husers]
                exact setRows_nonneg _ _ (by linarith [not_lt.mp hbal]) H1
              · refine appsPos_of_eq ?_ HA
                show db3.loanApps = db.loanApps
                rw [happs3, happs]

theorem withdraw_preserves (db : DB) (accId : Nat) (uid : String) (amt : ℚ) (H : Inv db) :
    Inv (bank_withdraw db accId uid amt).1 := by
  obtain ⟨HU, HA⟩ := H
  unfold bank_withdraw
  split
  next => exact ⟨HU, HA⟩
  next hle =>
    split
    next => exact ⟨HU, HA⟩
    next acc hacc =>
      split
      next => exact ⟨HU, HA⟩
      next hperm =>
        split
        next => exact ⟨HU, HA⟩
        next hbal =>
          split
          next db1 userData hga =>
            obtain ⟨H1, hg, hs, happs⟩ := get_user_account_spec db uid db1 userData hga HU
            split
            next hins => exact ⟨H1, appsPos_of_eq happs HA⟩
            next db3 hins =>
              obtain ⟨husers, happs3⟩ := insertBankEntry_spec _ _ _ hins
              refine ⟨?_, ?_⟩
              · show NonnegL db3.users
                rw [husers]
                refine setRows_nonneg _ _ ?_ H1
                have : 0 ≤ bal userData acc.currency := bal_nonneg ⟨hg, hs⟩ _
                linarith [not_le.mp hle]
              · refine appsPos_of_eq ?_ HA
                show db3.loanApps = db.loanApps
                rw [happs3, happs]

theorem btransfer_preserves (db : DB) (fromAcc toAcc : Nat) (uid : String) (amt : ℚ)
    (H : Inv db) : Inv (bank_transfer db fromAcc toAcc uid amt).1 := by
  obtain ⟨HU, HA⟩ := H
  unfold bank_transfer
  split
  next => exact ⟨HU, HA⟩
  next hle =>
    split
    next => exact ⟨HU, HA⟩
    next hsame =>
      split
      next accF accT haccF haccT =>
        split
        next => exact ⟨HU, HA⟩
        next hcur =>
          split
          next => exact ⟨HU, HA⟩
          next hperm =>
            split
            next => exact ⟨HU, HA⟩
            next hbal =>
              split
              next hins => exact ⟨HU, HA⟩
              next db3 hins =>
                obtain ⟨husers3, happs3⟩ := insertBankEntry_spec _ _ _ hins
                split
                next hins2 => exact ⟨HU, HA⟩
                next db4 hins2 =>
                  obtain ⟨husers4, happs4⟩ := insertBankEntry_spec _ _ _ hins2
                  refine ⟨?_, ?_⟩
                  · show NonnegL db4.users
                    rw [husers4, husers3]
                    exact HU
                  · refine appsPos_of_eq ?_ HA
                    show db4.loanApps = db.loanApps
                    rw [happs4, happs3]
      next => exact ⟨HU, HA⟩

theorem exchange_preserves (db : DB) (uid : String) (amt : ℚ) (fromCur toCur : String)
    (H : Inv db) : Inv (currency_exchange db uid amt fromCur toCur).1 := by
  obtain ⟨HU, HA⟩ := H
  unfold currency_exchange
  split
  next => exact ⟨HU, HA⟩
  next hcur =>
    split
    next => exact ⟨HU, HA⟩
    next hsame =>
      split
      next => exact ⟨HU, HA⟩
      next hle =>
        split
        next db1 u hga =>
          obtain ⟨H1, hg, hs, happs⟩ := get_user_account_spec db uid db1 u hga HU
          have hamt : 0 < amt := not_le.mp hle
          split
          next hfrom =>
            split
            next hbal => exact ⟨H1, appsPos_of_eq happs HA⟩
            next hbal =>
              refine ⟨?_, appsPos_of_eq happs HA⟩
              intro v hv
              rw [List.mem_map] at hv
              obtain ⟨w, hw, rfl⟩ := hv
              by_cases hid : w.userId = uid
              · rw [if_pos hid]
                constructor
                · show (0:ℚ) ≤ u.gold - amt
                  linarith [not_lt.mp hbal]
                · show (0:ℚ) ≤ u.silver + amt * get_exchange_rate
                  have : (0:ℚ) ≤ amt * get_exchange_rate := by
                    unfold get_exchange_rate; positivity
                  linarith
              · rw [if_neg hid]
                exact H1 w hw
          next hfrom =>
            split
            next hbal => exact ⟨H1, appsPos_of_eq happs HA⟩
            next hbal =>
              refine ⟨?_, appsPos_of_eq happs HA⟩
              intro v hv
              rw [List.mem_map] at hv
              obtain ⟨w, hw, rfl⟩ := hv
              by_cases hid : w.userId = uid
              · rw [if_pos hid]
                constructor
                · show (0:ℚ) ≤ u.gold + amt / get_exchange_rate
                  have : (0:ℚ) ≤ amt / get_exchange_rate := by
                    unfold get_exchange_rate; positivity
                  linarith
                · show (0:ℚ) ≤ u.silver - amt
                  linarith [not_lt.mp hbal]
              · rw [if_neg hid]
                exact H1 w hw

theorem step_preserves (db : DB) (op : Op) (H : Inv db) : Inv (stepOp db op) := by
  cases op with
  | pay f t amt cur => exact pay_preserves db f t amt cur H
  | fund lender appId => exact fund_preserves db lender appId H
  | repay b loanId amt => exact repay_preserves db b loanId amt H
  | deposit accId uid amt => exact deposit_preserves db accId uid amt H
  | withdraw accId uid amt => exact withdraw_preserves db accId uid amt H
  | btransfer f t uid amt => exact btransfer_preserves db f t uid amt H
  | exchange uid amt f t => exact exchange_preserves db uid amt f t H

theorem runOps_preserves (db : DB) (ops : List Op) (H : Inv db) : Inv (runOps db ops) := by
  induction ops generalizing db with
  | nil => exact H
  | cons op rest ih => exact ih (stepOp db op) (step_preserves db op H)

/-- A state whose balances are all non-negative but which contains a
pending loan application for a negative amount (a row `apply_for_loan`
itself would never create, since it requires `loan_amount > 0`). -/
def negDB : DB :=
  ⟨[⟨"11111111111111111", 100, 500⟩, ⟨"22222222222222222", 0, 0⟩],
   [], [⟨1, "22222222222222222", -100, .gold, 30, "pending", none⟩],
   [], [], [], [], [], [], []⟩

/-- C3, counterexample to the claim as stated: starting from a state in
which every account's two currency balances are non-negative, a single
`fund_loan` call on a pending application whose stored amount is
negative credits that negative amount to the borrower, driving the
borrower's balance negative.  The claim's hypothesis (non-negative
starting balances) holds, yet the conclusion fails after one money
operation. -/
theorem claim_C3_counterexample :
    UsersNonneg negDB ∧
    ¬ UsersNonneg (runOps negDB [Op.fund "11111111111111111" 1]) := by
  have husers : (runOps negDB [Op.fund "11111111111111111" 1]).users =
      [⟨"11111111111111111", 200, 500⟩, ⟨"22222222222222222", -100, 0⟩] := by
    have hv : validate_user_id "11111111111111111" = true := by decide
    simp [runOps, stepOp, fund_loan, get_user_account, hv, negDB, bal, setBal,
      creditRows, setRows, currencyStr]
    repeat first | norm_num | simp
  constructor
  · intro u hu
    simp only [negDB, List.mem_cons, List.mem_singleton, List.not_mem_nil, or_false] at hu
    rcases hu with rfl | rfl
    · exact ⟨by norm_num, by norm_num⟩
    · exact ⟨le_refl 0, le_refl 0⟩
  · intro Hc
    have hmem : (⟨"22222222222222222", -100, 0⟩ : User) ∈
        (runOps negDB [Op.fund "11111111111111111" 1]).users := by
      rw [husers]
      simp
    have := (Hc _ hmem).1
    norm_num at this

/-- C3 (amended).  Starting from a state in which every account's two
currency balances are non-negative *and every pending loan application's
amount is positive* (the well-formedness `apply_for_loan` guarantees for
rows it creates), no sequence of sequentially executed money operations
— wallet transfer, loan funding, loan repayment, bank deposit, bank
withdraw, bank transfer, currency exchange — ever produces a state in
which any account's balance in any currency is negative. -/
theorem claim_C3_no_negative_balances (db : DB)
    (H : UsersNonneg db) (HA : AppsPos db) (ops : List Op) :
    UsersNonneg (runOps db ops) :=
  (runOps_preserves db ops ⟨H, HA⟩).1

theorem payDB_nonneg : UsersNonneg payDB := by
  intro u hu
  rcases List.mem_cons.mp hu with rfl | hu2
  · exact ⟨by norm_num, by norm_num⟩
  · rcases List.mem_cons.mp hu2 with rfl | hu3
    · exact ⟨le_refl 0, le_refl 0⟩
    · exact absurd hu3 (List.not_mem_nil u)

theorem payDB_appsPos : AppsPos payDB := by
  intro a ha _
  exact absurd ha (List.not_mem_nil a)

/-- Concrete instance of `claim_C3_no_negative_balances`. -/
theorem claim_C3_witness :
    UsersNonneg (runOps payDB
      [Op.pay "11111111111111111" "22222222222222222" 30 "gold_dinars",
       Op.exchange "11111111111111111" 10 "gold" "silver"]) :=
  claim_C3_no_negative_balances payDB payDB_nonneg payDB_appsPos _

/-! ### Uniqueness of primary-key lookups (claims C5, C6) -/

/-- Find a loan row by primary key. -/
def findLoan (db : DB) (i : Nat) : Option Loan :=
  db.loans.find? fun l => decide (l.id = i)

/-- Find a loan-application row by primary key. -/
def findApp (db : DB) (i : Nat) : Option LoanApp :=
  db.loanApps.find? fun a => decide (a.id = i)

theorem find?_false_of_forall {α : Type} (p : α → Bool) (ls : List α)
    (h : ∀ x ∈ ls, p x = false) : ls.find? p = none := by
  induction ls with
  | nil => rfl
  | cons x t ih =>
      rw [List.find?_cons, h x (List.mem_cons_self x t)]
      exact ih fun y hy => h y (List.mem_cons_of_mem x hy)

theorem find?_key_unique {α : Type} (key : α → Nat) (P : α → Prop) [DecidablePred P]
    (j : Nat) (ls : List α) (hnd : (ls.map key).Nodup) (a : α) (ha : a ∈ ls)
    (hid : key a = j) :
    ls.find? (fun x => decide (key x = j ∧ P x)) = if P a then some a else none := by
  induction ls with
  | nil => cases ha
  | cons x t ih =>
      simp only [List.map_cons, List.nodup_cons] at hnd
      rcases List.mem_cons.mp ha with rfl | hat
      · rw [List.find?_cons]
        by_cases hP : P a
        · rw [if_pos hP, decide_eq_true ⟨hid, hP⟩]
        · rw [if_neg hP, decide_eq_false (fun hh => hP hh.2)]
          refine find?_false_of_forall _ _ ?_
          intro y hy
          refine decide_eq_false ?_
          intro hh
          have hm : key y ∈ List.map key t := List.mem_map_of_mem key hy
          rw [hh.1, ← hid] at hm
          exact hnd.1 hm
      · have hx : ¬ key x = j := by
          intro hh
          have hm : key a ∈ List.map key t := List.mem_map_of_mem key hat
          rw [hid, ← hh] at hm
          exact hnd.1 hm
        rw [List.find?_cons, decide_eq_false (fun hh => hx hh.1)]
        exact ih hnd.2 hat

theorem findLoan_unique (i : Nat) (ls : List Loan) (hnd : (ls.map Loan.id).Nodup)
    (l : Loan) (hl : l ∈ ls) (hid : l.id = i) :
    ls.find? (fun x => decide (x.id = i)) = some l := by
  induction ls with
  | nil => cases hl
  | cons x t ih =>
      simp only [List.map_cons, List.nodup_cons] at hnd
      rcases List.mem_cons.mp hl with rfl | hlt
      · rw [List.find?_cons, decide_eq_true hid]
      · have hx : ¬ x.id = i := by
          intro hh
          exact hnd.1 (by rw [hh, ← hid]; exact List.mem_map_of_mem Loan.id hlt)
        rw [List.find?_cons, decide_eq_false hx]
        exact ih hnd.2 hlt

theorem findL_map {f : Loan → Loan} (hf : ∀ x, (f x).id = x.id) (i : Nat) (ls : List Loan) :
    (ls.map f).find? (fun x => decide (x.id = i)) =
      (ls.find? (fun x => decide (x.id = i))).map f := by
  induction ls with
  | nil => rfl
  | cons x t ih =>
      rw [List.map_cons, List.find?_cons, List.find?_cons]
      by_cases hx : x.id = i
      · rw [decide_eq_true hx, decide_eq_true (by rw [hf]; exact hx)]
        rfl
      · rw [decide_eq_false hx, decide_eq_false (by rw [hf]; exact hx)]
        exact ih

theorem map_key_map {α : Type} (key : α → Nat) {f : α → α} (hf : ∀ x, key (f x) = key x)
    (ls : List α) : (ls.map f).map key = ls.map key := by
  induction ls with
  | nil => rfl
  | cons x t ih =>
      simp only [List.map_cons, hf, ih]

/-! ### Loan repayment (claim C5) -/

/-- The per-loan invariant: `repaid_amount` is bounded by the principal
and the status is `'completed'` exactly when it equals the principal. -/
def LoanOK (l : Loan) : Prop :=
  l.repaidAmount ≤ l.loanAmount ∧ (l.repaidAmount = l.loanAmount ↔ l.status = "completed")

/-- A sequence of `/repay_loan` calls `(borrower, loan_id, amount)`. -/
def runRepays (db : DB) (calls : List (String × Nat × ℚ)) : DB :=
  calls.foldl (fun d c => (repay_loan d c.1 c.2.1 c.2.2).1) db

theorem get_user_account_loans (db : DB) (uid : String) (db1 : DB) (u : User)
    (h : get_user_account db uid = (db1, u)) : db1.loans = db.loans := by
  unfold get_user_account at h
  split at h
  · obtain ⟨rfl, rfl⟩ := Prod.mk.injEq .. ▸ h
    rfl
  · split at h
    next v hfind =>
      obtain ⟨rfl, rfl⟩ := Prod.mk.injEq .. ▸ h
      rfl
    next hfind =>
      obtain ⟨rfl, rfl⟩ := Prod.mk.injEq .. ▸ h
      rfl

/-- Effect of one `repay_loan` call on the loan with id `i`: ids are
stable, the tracked loan survives, its principal is unchanged, its
`repaid_amount` does not decrease, and `LoanOK` is preserved. -/
theorem repay_step (db : DB) (b : String) (j : Nat) (amt : ℚ) (i : Nat) (l : Loan)
    (hnd : (db.loans.map Loan.id).Nodup)
    (hfind : findLoan db i = some l) (hJ : LoanOK l) :
    ((repay_loan db b j amt).1.loans).map Loan.id = db.loans.map Loan.id ∧
    ∃ l2, findLoan (repay_loan db b j amt).1 i = some l2 ∧ LoanOK l2 ∧
      l.repaidAmount ≤ l2.repaidAmount ∧ l2.loanAmount = l.loanAmount := by
  have hfind2 : db.loans.find? (fun x => decide (x.id = i)) = some l := hfind
  have hps := List.find?_some hfind2
  have hid : l.id = i := of_decide_eq_true hps
  unfold repay_loan
  split
  next => exact ⟨rfl, l, hfind, hJ, le_refl _, rfl⟩
  next loan hf2 =>
    have hps2 := List.find?_some hf2
    have hprop := of_decide_eq_true hps2
    split
    next => exact ⟨rfl, l, hfind, hJ, le_refl _, rfl⟩
    next hst =>
      split
      next => exact ⟨rfl, l, hfind, hJ, le_refl _, rfl⟩
      next hrem =>
        split
        next => exact ⟨rfl, l, hfind, hJ, le_refl _, rfl⟩
        next hle =>
          split
          next db1 userData hga =>
            have hloans1 : db1.loans = db.loans := get_user_account_loans db b db1 userData hga
            split
            next hbal =>
              refine ⟨by rw [hloans1], l, ?_, hJ, le_refl _, rfl⟩
              show db1.loans.find? _ = some l
              rw [hloans1]
              exact hfind
            next hbal =>
              have hf : ∀ x : Loan,
                  ((fun x => if x.id = j then
                    { x with
                      repaidAmount := loan.repaidAmount + amt,
                      status :=
                        (if loan.loanAmount ≤ loan.repaidAmount + amt then "completed"
                          else "active") }
                    else x) x).id = x.id := by
                intro x
                by_cases hx : x.id = j <;> simp [hx]
              constructor
              · exact (map_key_map Loan.id hf db1.loans).trans
                  (by rw [hloans1])
              · by_cases hij : i = j
                · -- the call repays exactly the tracked loan
                  have hloan_l : loan = l := by
                    have h1 : db.loans.find? (fun x => decide (x.id = i)) = some loan :=
                      findLoan_unique i db.loans hnd loan (List.mem_of_find?_eq_some hf2)
                        (by rw [hprop.1, hij])
                    have h2 : some loan = some l := by rw [← h1]; exact hfind2
                    exact Option.some.injEq .. ▸ h2
                  subst hloan_l
                  have hact : loan.status = "active" := not_not.mp (fun hh => hst hh)
                  have hamt : 0 < amt := not_le.mp hle
                  have hrem2 : amt ≤ loan.loanAmount - loan.repaidAmount := not_lt.mp hrem
                  refine ⟨{ loan with
                      repaidAmount := loan.repaidAmount + amt,
                      status :=
                        (if loan.loanAmount ≤ loan.repaidAmount + amt then "completed"
                          else "active") }, ?_, ?_, ?_, ?_⟩
                  · refine (findL_map hf i db1.loans).trans ?_
                    rw [hloans1, hfind2]
                    simp [hprop.1]
                  · constructor
                    · show loan.repaidAmount + amt ≤ loan.loanAmount
                      linarith
                    · show loan.repaidAmount + amt = loan.loanAmount ↔
                        (if loan.loanAmount ≤ loan.repaidAmount + amt then "completed"
                          else "active") = "completed"
                      by_cases hc : loan.loanAmount ≤ loan.repaidAmount + amt
                      · rw [if_pos hc]
                        constructor
                        · intro _; rfl
                        · intro _; linarith
                      · rw [if_neg hc]
                        constructor
                        · intro hh; exact absurd hh.ge hc
                        · intro hh; exact absurd hh (by decide)
                  · show loan.repaidAmount ≤ loan.repaidAmount + amt
                    linarith
                  · rfl
                · -- the call concerns a different loan id
                  have hne : ¬ l.id = j := by rw [hid]; exact hij
                  refine ⟨l, ?_, hJ, le_refl _, rfl⟩
                  refine (findL_map hf i db1.loans).trans ?_
                  rw [hloans1, hfind2]
                  simp [hne]

/-- Sequences of `repay_loan` calls: the tracked loan's `repaid_amount`
never decreases, stays bounded by the unchanged principal, and `LoanOK`
is maintained. -/
theorem repay_seq (db : DB) (calls : List (String × Nat × ℚ)) (i : Nat) (l : Loan)
    (hnd : (db.loans.map Loan.id).Nodup) (hfind : findLoan db i = some l) (hJ : LoanOK l) :
    ∃ l2, findLoan (runRepays db calls) i = some l2 ∧ LoanOK l2 ∧
      l.repaidAmount ≤ l2.repaidAmount ∧ l2.loanAmount = l.loanAmount := by
  induction calls generalizing db l with
  | nil => exact ⟨l, hfind, hJ, le_refl _, rfl⟩
  | cons c rest ih =>
      obtain ⟨hids, l1, hf1, hJ1, hmono1, hamt1⟩ :=
        repay_step db c.1 c.2.1 c.2.2 i l hnd hfind hJ
      have hnd1 : (((repay_loan db c.1 c.2.1 c.2.2).1).loans.map Loan.id).Nodup := by
        rw [hids]; exact hnd
      obtain ⟨l2, hf2, hJ2, hmono2, hamt2⟩ :=
        ih (repay_loan db c.1 c.2.1 c.2.2).1 l1 hnd1 hf1 hJ1
      exact ⟨l2, hf2, hJ2, le_trans hmono1 hmono2, by rw [hamt2, hamt1]⟩

/-- C5.  For a loan satisfying `LoanOK` (what `fund_loan` establishes:
`repaid_amount` bounded by principal and `'completed'` exactly at full
repayment): a repayment by someone other than the borrower, one
targeting a non-`'active'` loan, one whose amount exceeds the
outstanding balance, or one whose amount is non-positive is rejected
with no state change; and under any sequence of `repay_loan` calls the
loan's `repaid_amount` never decreases, never exceeds the unchanged
principal, and its status is `'completed'` exactly when `repaid_amount`
equals the principal.  The nodup hypothesis is the `loans.id` PRIMARY
KEY. -/
theorem claim_C5_repay_monotonicity (db : DB) (i : Nat) (l : Loan)
    (hnd : (db.loans.map Loan.id).Nodup)
    (hfind : findLoan db i = some l)
    (hJ : LoanOK l) :
    (∀ b amt, b ≠ l.borrowerId → repay_loan db b i amt = (db, some .notFound)) ∧
    (∀ amt, l.status ≠ "active" → repay_loan db l.borrowerId i amt = (db, some .notActive)) ∧
    (∀ amt, l.status = "active" → l.loanAmount - l.repaidAmount < amt →
      repay_loan db l.borrowerId i amt = (db, some .exceedsRemaining)) ∧
    (∀ amt, l.status = "active" → amt ≤ l.loanAmount - l.repaidAmount → amt ≤ 0 →
      repay_loan db l.borrowerId i amt = (db, some .nonPositive)) ∧
    (∀ calls : List (String × Nat × ℚ), ∃ l2, findLoan (runRepays db calls) i = some l2 ∧
      l.repaidAmount ≤ l2.repaidAmount ∧ l2.repaidAmount ≤ l2.loanAmount ∧
      (l2.repaidAmount = l2.loanAmount ↔ l2.status = "completed") ∧
      l2.loanAmount = l.loanAmount) := by
  have hfind2 : db.loans.find? (fun x => decide (x.id = i)) = some l := hfind
  have hps := List.find?_some hfind2
  have hid : l.id = i := of_decide_eq_true hps
  have hmem : l ∈ db.loans := List.mem_of_find?_eq_some hfind2
  have hkey : ∀ b : String,
      db.loans.find? (fun x => decide (x.id = i ∧ x.borrowerId = b)) =
        if l.borrowerId = b then some l else none := fun b =>
    find?_key_unique Loan.id (fun x => x.borrowerId = b) i db.loans hnd l hmem hid
  refine ⟨?_, ?_, ?_, ?_, ?_⟩
  · intro b amt hb
    unfold repay_loan
    split
    next => rfl
    next loan hsome =>
      rw [hkey b, if_neg (fun hh => hb hh.symm)] at hsome
      simp at hsome
  · intro amt hst
    unfold repay_loan
    split
    next hnone =>
      rw [hkey l.borrowerId, if_pos rfl] at hnone
      simp at hnone
    next loan hsome =>
      rw [hkey l.borrowerId, if_pos rfl] at hsome
      have hl : l = loan := Option.some.injEq .. ▸ hsome
      subst hl
      split
      next => rfl
      next h => exact absurd hst h
  · intro amt hact hlt
    unfold repay_loan
    split
    next hnone =>
      rw [hkey l.borrowerId, if_pos rfl] at hnone
      simp at hnone
    next loan hsome =>
      rw [hkey l.borrowerId, if_pos rfl] at hsome
      have hl : l = loan := Option.some.injEq .. ▸ hsome
      subst hl
      rw [if_neg (not_not_intro hact), if_pos hlt]
  · intro amt hact hle hnp
    unfold repay_loan
    split
    next hnone =>
      rw [hkey l.borrowerId, if_pos rfl] at hnone
      simp at hnone
    next loan hsome =>
      rw [hkey l.borrowerId, if_pos rfl] at hsome
      have hl : l = loan := Option.some.injEq .. ▸ hsome
      subst hl
      rw [if_neg (not_not_intro hact), if_neg (not_lt.mpr hle), if_pos hnp]
  · intro calls
    obtain ⟨l2, hf2, hJ2, hmono, hamt⟩ := repay_seq db calls i l hnd hfind hJ
    exact ⟨l2, hf2, hmono, hJ2.1, hJ2.2, hamt⟩

/-- Concrete instance for `claim_C5_repay_monotonicity`. -/
def loanDB : DB :=
  ⟨[⟨"11111111111111111", 0, 0⟩, ⟨"22222222222222222", 100, 500⟩],
   [], [], [⟨1, "11111111111111111", "22222222222222222", 50, .gold, 30, 0, "active"⟩],
   [], [], [], [], [], []⟩

theorem claim_C5_witness :
    repay_loan loanDB "33333333333333333" 1 5 = (loanDB, some .notFound) := by
  have hnd : (loanDB.loans.map Loan.id).Nodup := by decide
  have hfind : findLoan loanDB 1 =
      some ⟨1, "11111111111111111", "22222222222222222", 50, .gold, 30, 0, "active"⟩ := by
    simp [findLoan, loanDB]
  have hJ : LoanOK ⟨1, "11111111111111111", "22222222222222222", 50, .gold, 30, 0, "active"⟩ := by
    constructor
    · show (0:ℚ) ≤ 50
      norm_num
    · constructor
      · intro h
        norm_num at h
      · intro h
        simp at h
  exact (claim_C5_repay_monotonicity loanDB 1 _ hnd hfind hJ).1 "33333333333333333" 5
    (by decide)

/-! ### Loan funding (claim C6) -/

theorem get_user_account_apps (db : DB) (uid : String) (db1 : DB) (u : User)
    (h : get_user_account db uid = (db1, u)) : db1.loanApps = db.loanApps := by
  unfold get_user_account at h
  split at h
  · obtain ⟨rfl, rfl⟩ := Prod.mk.injEq .. ▸ h
    rfl
  · split at h
    next v hfind =>
      obtain ⟨rfl, rfl⟩ := Prod.mk.injEq .. ▸ h
      rfl
    next hfind =>
      obtain ⟨rfl, rfl⟩ := Prod.mk.injEq .. ▸ h
      rfl

/-- When the application with id `j` is not `'pending'`, `fund_loan`
fails with the single not-found/already-funded error and changes
nothing. -/
theorem fund_notFound (db : DB) (j : Nat) (hnd : (db.loanApps.map LoanApp.id).Nodup)
    (a : LoanApp) (ha : a ∈ db.loanApps) (hid : a.id = j) (hnp : a.status ≠ "pending") :
    ∀ lender, fund_loan db lender j = (db, some .notFound) := by
  intro lender
  have hkey : db.loanApps.find? (fun x => decide (x.id = j ∧ x.status = "pending")) =
      if a.status = "pending" then some a else none :=
    find?_key_unique LoanApp.id (fun x => x.status = "pending") j db.loanApps hnd a ha hid
  unfold fund_loan
  split
  next => rfl
  next app hsome =>
    rw [hkey, if_neg hnp] at hsome
    simp at hsome

/-- C6.  A `fund_loan` call for an application whose status is not
`'pending'` (in particular an already-funded one) fails with the single
not-found/already-funded error and is a no-op; and after a successful
funding the application is `'funded'`, so every further `fund_loan`
call on it fails the same way and moves no funds.  The nodup hypothesis
is the `loan_applications.id` PRIMARY KEY. -/
theorem claim_C6_fund_idempotent_failure (db : DB) (j : Nat)
    (hnd : (db.loanApps.map LoanApp.id).Nodup) :
    (∀ lender, ∀ a ∈ db.loanApps, a.id = j → a.status ≠ "pending" →
      fund_loan db lender j = (db, some .notFound)) ∧
    (∀ lender db2, fund_loan db lender j = (db2, none) →
      (∃ a2 ∈ db2.loanApps, a2.id = j ∧ a2.status = "funded") ∧
      ∀ lender2, fund_loan db2 lender2 j = (db2, some .notFound)) := by
  constructor
  · intro lender a ha hid hnp
    exact fund_notFound db j hnd a ha hid hnp lender
  · intro lender db2 h
    unfold fund_loan at h
    split at h
    next => simp at h
    next app hfind =>
      have hps := List.find?_some hfind
      have hprop := of_decide_eq_true hps
      have hmem : app ∈ db.loanApps := List.mem_of_find?_eq_some hfind
      split at h
      next => simp at h
      next hself =>
        split at h
        next db1 userData hga =>
          have happs : db1.loanApps = db.loanApps :=
            get_user_account_apps db lender db1 userData hga
          split at h
          next => simp at h
          next hbal =>
            have hdb2 := congrArg Prod.fst h
            simp only at hdb2
            subst hdb2
            have hmap : ∀ x : LoanApp,
                LoanApp.id ((fun a => if a.id = j then
                  { a with status := "funded", fundedBy := some lender } else a) x) =
                  LoanApp.id x := by
              intro x
              by_cases hx : x.id = j <;> simp [hx]
            have hids2 : (db1.loanApps.map fun a =>
                if a.id = j then { a with status := "funded", fundedBy := some lender }
                else a).map LoanApp.id = db.loanApps.map LoanApp.id := by
              rw [map_key_map LoanApp.id hmap, happs]
            have happmem : app ∈ db1.loanApps := by rw [happs]; exact hmem
            have hfa : (fun a : LoanApp =>
                if a.id = j then { a with status := "funded", fundedBy := some lender }
                else a) app = { app with status := "funded", fundedBy := some lender } := by
              show (if app.id = j then
                { app with status := "funded", fundedBy := some lender } else app) = _
              rw [if_pos hprop.1]
            have hmem2 : { app with status := "funded", fundedBy := some lender } ∈
                db1.loanApps.map (fun a =>
                  if a.id = j then { a with status := "funded", fundedBy := some lender }
                  else a) :=
              hfa ▸ List.mem_map_of_mem _ happmem
            constructor
            · exact ⟨{ app with status := "funded", fundedBy := some lender }, hmem2,
                hprop.1, rfl⟩
            · intro lender2
              refine fund_notFound _ j ?_
                { app with status := "funded", fundedBy := some lender } hmem2 hprop.1
                (by simp) lender2
              show ((db1.loanApps.map _).map LoanApp.id).Nodup
              rw [hids2]
              exact hnd

/-- Concrete instance for `claim_C6_fund_idempotent_failure`: an
already-funded application. -/
def fundedDB : DB :=
  ⟨[⟨"11111111111111111", 100, 500⟩, ⟨"22222222222222222", 0, 0⟩],
   [], [⟨1, "22222222222222222", 50, .gold, 30, "funded", some "11111111111111111"⟩],
   [], [], [], [], [], [], []⟩

theorem claim_C6_witness :
    fund_loan fundedDB "11111111111111111" 1 = (fundedDB, some .notFound) :=
  (claim_C6_fund_idempotent_failure fundedDB 1 (by decide)).1 "11111111111111111"
    ⟨1, "22222222222222222", 50, .gold, 30, "funded", some "11111111111111111"⟩
    (List.mem_cons_self _ _) rfl (by decide)

/-! ### The overdue-loan sweep (claims C7, C8)

Dates are day numbers: the source stores `due_date` as an ISO
`'%Y-%m-%d'` string, compares it lexicographically against
`(now - 14 days)` formatted the same way, and recovers
`days_overdue = (now - strptime(due_date)).days`, which equals the
day difference. -/

/-- `check_overdue_loans`: select every `'active'` loan whose due date
is earlier than the cutoff 14 days before `now` and that is not fully
repaid.  (The source returns the columns
`(borrower_id, due_date, loan_amount, repaid_amount, id)`; the model
returns the rows.) -/
def check_overdue_loans (db : DB) (now : Int) : List Loan :=
  db.loans.filter fun l =>
    decide (l.status = "active" ∧ l.dueDate < now - 14 ∧ l.repaidAmount < l.loanAmount)

/-- `reset_user_data`: the punitive full reset of one borrower.  One
`account_reset` transaction row (amount 0, currency `'system'`) is
appended, both wallet balances are zeroed, active businesses closed,
pending applications cancelled, active loans defaulted, active
investments cancelled, and marketplace listings deleted.  (The zeroed
job/daily-counter columns of `users` are display data not modelled.) -/
def reset_user_data (db : DB) (uid : String) (reason : String) : DB :=
  { db with
    transactions := db.transactions ++
      [⟨uid, "account_reset", 0, "system", "Account reset: " ++ reason, none⟩],
    users := db.users.map fun u =>
      if u.userId = uid then { u with gold := 0, silver := 0 } else u,
    businesses := db.businesses.map fun b =>
      if b.userId = uid ∧ b.status = "active" then { b with status := "closed" } else b,
    loanApps := db.loanApps.map fun a =>
      if a.borrowerId = uid ∧ a.status = "pending" then { a with status := "cancelled" } else a,
    loans := db.loans.map fun l =>
      if l.borrowerId = uid ∧ l.status = "active" then { l with status := "defaulted" } else l,
    investments := db.investments.map fun i =>
      if i.userId = uid ∧ i.status = "active" then { i with status := "cancelled" } else i,
    marketplace := db.marketplace.filter fun m => decide (¬ m.sellerId = uid) }

/-- A warning DM sent to a borrower. -/
structure Warning where
  userId : String
  daysOverdue : Int
deriving DecidableEq, Repr

/-- The per-borrower loop body of `process_overdue_loans`: each
borrower is processed at most once; at ≥ 14 days overdue the account is
reset, at 7-13 days a warning is emitted with no state change, below 7
days nothing happens. -/
def processEntries (now : Int) : List Loan → List String → DB → DB × List Warning
  | [], _, db => (db, [])
  | l :: rest, processed, db =>
    if l.borrowerId ∈ processed then processEntries now rest processed db
    else if 14 ≤ now - l.dueDate then
      processEntries now rest (l.borrowerId :: processed)
        (reset_user_data db l.borrowerId
          ("Loan default - " ++ toString (l.loanAmount - l.repaidAmount) ++
            " unpaid for " ++ toString (now - l.dueDate) ++ " days"))
    else if 7 ≤ now - l.dueDate then
      ((processEntries now rest (l.borrowerId :: processed) db).1,
        ⟨l.borrowerId, now - l.dueDate⟩ ::
          (processEntries now rest (l.borrowerId :: processed) db).2)
    else processEntries now rest processed db

/-- `process_overdue_loans`: one sweep run. -/
def process_overdue_loans (db : DB) (now : Int) : DB × List Warning :=
  processEntries now (check_overdue_loans db now) [] db

/-- How many rows a transaction list has for one user and type. -/
def txnCountL (ts : List Txn) (uid ttype : String) : Nat :=
  (ts.map fun t => if t.userId = uid ∧ t.txnType = ttype then 1 else 0).sum

/-- How many `transactions` rows a user has of one type. -/
def txnCount (db : DB) (uid ttype : String) : Nat :=
  txnCountL db.transactions uid ttype

theorem txnCountL_append (a b : List Txn) (uid ttype : String) :
    txnCountL (a ++ b) uid ttype = txnCountL a uid ttype + txnCountL b uid ttype := by
  unfold txnCountL
  rw [List.map_append, List.sum_append]

/-- C8 (amended).  Each sweep selects exactly the `'active'` loans with
`repaid_amount < loan_amount` whose due date is earlier than 14 days
before now (the source's cutoff), so every selected loan is at least 15
days past due; consequently the 7-to-13-day warning branch never fires
and a sweep emits no warnings. -/
theorem claim_C8_sweep_selection (db : DB) (now : Int) :
    (∀ l, l ∈ check_overdue_loans db now ↔
      (l ∈ db.loans ∧ l.status = "active" ∧ l.dueDate < now - 14 ∧
        l.repaidAmount < l.loanAmount)) ∧
    (∀ l ∈ check_overdue_loans db now, 15 ≤ now - l.dueDate) ∧
    (process_overdue_loans db now).2 = [] := by
  have hiff : ∀ l, l ∈ check_overdue_loans db now ↔
      (l ∈ db.loans ∧ l.status = "active" ∧ l.dueDate < now - 14 ∧
        l.repaidAmount < l.loanAmount) := by
    intro l
    unfold check_overdue_loans
    rw [List.mem_filter, decide_eq_true_eq]
  have hdays : ∀ l ∈ check_overdue_loans db now, 15 ≤ now - l.dueDate := by
    intro l hl
    have := ((hiff l).mp hl).2.2.1
    omega
  refine ⟨hiff, hdays, ?_⟩
  show (processEntries now (check_overdue_loans db now) [] db).2 = []
  have hall : ∀ l ∈ check_overdue_loans db now, 14 ≤ now - l.dueDate := by
    intro l hl
    have := hdays l hl
    omega
  clear hiff hdays
  generalize check_overdue_loans db now = entries at hall
  induction entries generalizing db with
  | nil => rfl
  | cons l rest ih =>
      show (processEntries now (l :: rest) [] db).2 = []
      -- a general fact over any processed set is needed for the induction
      have key : ∀ (es : List Loan), (∀ e ∈ es, 14 ≤ now - e.dueDate) →
          ∀ (processed : List String) (d : DB),
            (processEntries now es processed d).2 = [] := by
        intro es hes
        induction es with
        | nil => intro processed d; rfl
        | cons e tail ihe =>
            intro processed d
            have htail : ∀ x ∈ tail, 14 ≤ now - x.dueDate :=
              fun x hx => hes x (List.mem_cons_of_mem e hx)
            unfold processEntries
            by_cases hin : e.borrowerId ∈ processed
            · rw [if_pos hin]
              exact ihe htail processed d
            · rw [if_neg hin, if_pos (hes e (List.mem_cons_self e tail))]
              exact ihe htail _ _
      exact key (l :: rest) hall [] db

/-- Concrete state for the sweep claims: a loan 20 days past due. -/
def overdueDB : DB :=
  ⟨[⟨"22222222222222222", 100, 500⟩], [], [],
   [⟨1, "11111111111111111", "22222222222222222", 50, .gold, 80, 0, "active"⟩],
   [], [], [], [], [], []⟩

/-- Concrete instance of `claim_C8_sweep_selection`. -/
theorem claim_C8_witness :
    (⟨1, "11111111111111111", "22222222222222222", 50, .gold, 80, 0, "active"⟩ : Loan) ∈
      check_overdue_loans overdueDB 100 ∧
    (15 : Int) ≤ 100 - 80 ∧
    (process_overdue_loans overdueDB 100).2 = [] := by
  have h := claim_C8_sweep_selection overdueDB 100
  have hmem : (⟨1, "11111111111111111", "22222222222222222", 50, .gold, 80, 0,
      "active"⟩ : Loan) ∈ check_overdue_loans overdueDB 100 :=
    (h.1 _).mpr ⟨List.mem_cons_self _ _, rfl, by decide, by norm_num⟩
  exact ⟨hmem, h.2.1 _ hmem, h.2.2⟩

/-- A loan exactly 14 days past due (the boundary the claim includes
but the code's strict 14-day cutoff excludes). -/
def boundaryDB : DB :=
  ⟨[⟨"22222222222222222", 100, 500⟩], [], [],
   [⟨1, "11111111111111111", "22222222222222222", 50, .gold, 86, 0, "active"⟩],
   [], [], [], [], [], []⟩

/-- C8, counterexample to the claim as stated: an `'active'` loan that
is past due (10 days) and underpaid is, per the claim, selected and its
borrower warned; the code's selection cutoff of `now - 14 days` skips
it, and the sweep emits no warning and changes nothing. -/
theorem claim_C8_counterexample :
    (⟨1, "11111111111111111", "22222222222222222", 50, .gold, 90, 0, "active"⟩ : Loan) ∈
      ([⟨1, "11111111111111111", "22222222222222222", 50, .gold, 90, 0, "active"⟩] :
        List Loan) ∧
    ((90 : Int) < 100 ∧ (7 : Int) ≤ 100 - 90 ∧ (100 : Int) - 90 < 14 ∧ (0:ℚ) < 50) ∧
    check_overdue_loans
      ⟨[⟨"22222222222222222", 100, 500⟩], [], [],
       [⟨1, "11111111111111111", "22222222222222222", 50, .gold, 90, 0, "active"⟩],
       [], [], [], [], [], []⟩ 100 = [] ∧
    process_overdue_loans
      ⟨[⟨"22222222222222222", 100, 500⟩], [], [],
       [⟨1, "11111111111111111", "22222222222222222", 50, .gold, 90, 0, "active"⟩],
       [], [], [], [], [], []⟩ 100 =
      (⟨[⟨"22222222222222222", 100, 500⟩], [], [],
        [⟨1, "11111111111111111", "22222222222222222", 50, .gold, 90, 0, "active"⟩],
        [], [], [], [], [], []⟩, []) := by
  have hsel : check_overdue_loans
      ⟨[⟨"22222222222222222", 100, 500⟩], [], [],
       [⟨1, "11111111111111111", "22222222222222222", 50, .gold, 90, 0, "active"⟩],
       [], [], [], [], [], []⟩ 100 = [] := by
    unfold check_overdue_loans
    simp
  refine ⟨List.mem_cons_self _ _, ⟨by decide, by decide, by decide, by norm_num⟩, hsel, ?_⟩
  show processEntries 100 (check_overdue_loans _ 100) [] _ = _
  rw [hsel]
  rfl

/-- The observable outcome of the punitive reset of borrower `B`,
relative to the pre-sweep state `db0`: both wallet balances zero, no
active loan (each previously active loan now present as `'defaulted'`),
no active business, no pending application, no active investment, no
marketplace listing, and exactly one new `account_reset` transaction
row. -/
def ResetDoneB (db0 db : DB) (B : String) : Prop :=
  (∀ u ∈ db.users, u.userId = B → u.gold = 0 ∧ u.silver = 0) ∧
  (∀ l ∈ db.loans, l.borrowerId = B → l.status ≠ "active") ∧
  (∀ l0 ∈ db0.loans, l0.borrowerId = B → l0.status = "active" →
    { l0 with status := "defaulted" } ∈ db.loans) ∧
  (∀ b ∈ db.businesses, b.userId = B → b.status ≠ "active") ∧
  (∀ a ∈ db.loanApps, a.borrowerId = B → a.status ≠ "pending") ∧
  (∀ i ∈ db.investments, i.userId = B → i.status ≠ "active") ∧
  (∀ m ∈ db.marketplace, m.sellerId ≠ B) ∧
  txnCount db B "account_reset" = txnCount db0 B "account_reset" + 1

/-- What holds of `B`'s rows before `B` itself is processed: `B`'s loan
rows are untouched and no `account_reset` row for `B` has been added. -/
def PreB (db0 db : DB) (B : String) : Prop :=
  (∀ l0 ∈ db0.loans, l0.borrowerId = B → l0 ∈ db.loans) ∧
  txnCount db B "account_reset" = txnCount db0 B "account_reset"

theorem txnCount_reset_self (db : DB) (B r : String) :
    txnCount (reset_user_data db B r) B "account_reset" =
      txnCount db B "account_reset" + 1 := by
  show txnCountL (db.transactions ++ _) B "account_reset" = _
  rw [txnCountL_append]
  show _ + ((if B = B ∧ "account_reset" = "account_reset" then 1 else 0) + 0) = _
  rw [if_pos ⟨rfl, rfl⟩]
  rfl

theorem txnCount_reset_other (db : DB) (uid r B : String) (hne : uid ≠ B) :
    txnCount (reset_user_data db uid r) B "account_reset" =
      txnCount db B "account_reset" := by
  show txnCountL (db.transactions ++ _) B "account_reset" = _
  rw [txnCountL_append]
  show _ + ((if uid = B ∧ "account_reset" = "account_reset" then 1 else 0) + 0) = _
  rw [if_neg (fun hh => hne hh.1)]
  rfl

theorem map_mem_of_eq {α : Type} {f : α → α} {x y : α} {ls : List α}
    (hx : x ∈ ls) (hfx : f x = y) : y ∈ ls.map f :=
  hfx ▸ List.mem_map_of_mem f hx

theorem reset_establishes (db0 db : DB) (B r : String) (hpre : PreB db0 db B) :
    ResetDoneB db0 (reset_user_data db B r) B := by
  refine ⟨?_, ?_, ?_, ?_, ?_, ?_, ?_, ?_⟩
  · intro u hu huid
    rw [show (reset_user_data db B r).users = db.users.map _ from rfl, List.mem_map] at hu
    obtain ⟨w, hw, rfl⟩ := hu
    by_cases hid : w.userId = B
    · rw [if_pos hid]
      exact ⟨rfl, rfl⟩
    · rw [if_neg hid] at huid ⊢
      exact absurd huid hid
  · intro l hl hb
    rw [show (reset_user_data db B r).loans = db.loans.map _ from rfl, List.mem_map] at hl
    obtain ⟨w, hw, rfl⟩ := hl
    by_cases hc : w.borrowerId = B ∧ w.status = "active"
    · rw [if_pos hc]
      simp
    · rw [if_neg hc] at hb ⊢
      intro hact
      exact hc ⟨hb, hact⟩
  · intro l0 hl0 hb ha
    have hmem : l0 ∈ db.loans := hpre.1 l0 hl0 hb
    refine map_mem_of_eq hmem ?_
    show (if l0.borrowerId = B ∧ l0.status = "active" then { l0 with status := "defaulted" }
      else l0) = { l0 with status := "defaulted" }
    rw [if_pos ⟨hb, ha⟩]
  · intro b hb huid
    rw [show (reset_user_data db B r).businesses = db.businesses.map _ from rfl,
      List.mem_map] at hb
    obtain ⟨w, hw, rfl⟩ := hb
    by_cases hc : w.userId = B ∧ w.status = "active"
    · rw [if_pos hc]
      simp
    · rw [if_neg hc] at huid ⊢
      intro hact
      exact hc ⟨huid, hact⟩
  · intro a ha hb
    rw [show (reset_user_data db B r).loanApps = db.loanApps.map _ from rfl,
      List.mem_map] at ha
    obtain ⟨w, hw, rfl⟩ := ha
    by_cases hc : w.borrowerId = B ∧ w.status = "pending"
    · rw [if_pos hc]
      simp
    · rw [if_neg hc] at hb ⊢
      intro hp
      exact hc ⟨hb, hp⟩
  · intro i hi huid
    rw [show (reset_user_data db B r).investments = db.investments.map _ from rfl,
      List.mem_map] at hi
    obtain ⟨w, hw, rfl⟩ := hi
    by_cases hc : w.userId = B ∧ w.status = "active"
    · rw [if_pos hc]
      simp
    · rw [if_neg hc] at huid ⊢
      intro hact
      exact hc ⟨huid, hact⟩
  · intro m hm
    rw [show (reset_user_data db B r).marketplace = db.marketplace.filter _ from rfl,
      List.mem_filter] at hm
    exact of_decide_eq_true hm.2
  · rw [txnCount_reset_self, hpre.2]

theorem reset_preserves_PreB (db0 db : DB) (uid r B : String) (hne : uid ≠ B)
    (hpre : PreB db0 db B) : PreB db0 (reset_user_data db uid r) B := by
  constructor
  · intro l0 hl0 hb
    have hmem : l0 ∈ db.loans := hpre.1 l0 hl0 hb
    refine map_mem_of_eq hmem ?_
    show (if l0.borrowerId = uid ∧ l0.status = "active" then { l0 with status := "defaulted" }
      else l0) = l0
    rw [if_neg (fun hh => hne (hb ▸ hh.1).symm)]
  · rw [txnCount_reset_other db uid r B hne, hpre.2]

theorem reset_preserves_Done (db0 db : DB) (uid r B : String) (hne : uid ≠ B)
    (hdone : ResetDoneB db0 db B) : ResetDoneB db0 (reset_user_data db uid r) B := by
  obtain ⟨h1, h2, h3, h4, h5, h6, h7, h8⟩ := hdone
  refine ⟨?_, ?_, ?_, ?_, ?_, ?_, ?_, ?_⟩
  · intro u hu huid
    rw [show (reset_user_data db uid r).users = db.users.map _ from rfl,
      List.mem_map] at hu
    obtain ⟨w, hw, rfl⟩ := hu
    by_cases hc : w.userId = uid
    · rw [if_pos hc]
      exact ⟨rfl, rfl⟩
    · rw [if_neg hc] at huid ⊢
      exact h1 w hw huid
  · intro l hl hb
    rw [show (reset_user_data db uid r).loans = db.loans.map _ from rfl,
      List.mem_map] at hl
    obtain ⟨w, hw, rfl⟩ := hl
    by_cases hc : w.borrowerId = uid ∧ w.status = "active"
    · rw [if_pos hc]
      simp
    · rw [if_neg hc] at hb ⊢
      exact h2 w hw hb
  · intro l0 hl0 hb ha
    have hmem := h3 l0 hl0 hb ha
    refine map_mem_of_eq hmem ?_
    show (if ({ l0 with status := "defaulted" } : Loan).borrowerId = uid ∧
        ({ l0 with status := "defaulted" } : Loan).status = "active" then
      ({ ({ l0 with status := "defaulted" } : Loan) with status := "defaulted" } : Loan)
      else { l0 with status := "defaulted" }) = { l0 with status := "defaulted" }
    rw [if_neg ?_]
    intro hh
    exact hne (hb ▸ hh.1).symm
  · intro b hb huid
    rw [show (reset_user_data db uid r).businesses = db.businesses.map _ from rfl,
      List.mem_map] at hb
    obtain ⟨w, hw, rfl⟩ := hb
    by_cases hc : w.userId = uid ∧ w.status = "active"
    · rw [if_pos hc]
      simp
    · rw [if_neg hc] at huid ⊢
      exact h4 w hw huid
  · intro a ha hb
    rw [show (reset_user_data db uid r).loanApps = db.loanApps.map _ from rfl,
      List.mem_map] at ha
    obtain ⟨w, hw, rfl⟩ := ha
    by_cases hc : w.borrowerId = uid ∧ w.status = "pending"
    · rw [if_pos hc]
      simp
    · rw [if_neg hc] at hb ⊢
      exact h5 w hw hb
  · intro i hi huid
    rw [show (reset_user_data db uid r).investments = db.investments.map _ from rfl,
      List.mem_map] at hi
    obtain ⟨w, hw, rfl⟩ := hi
    by_cases hc : w.userId = uid ∧ w.status = "active"
    · rw [if_pos hc]
      simp
    · rw [if_neg hc] at huid ⊢
      exact h6 w hw huid
  · intro m hm
    rw [show (reset_user_data db uid r).marketplace = db.marketplace.filter _ from rfl,
      List.mem_filter] at hm
    exact h7 m hm.1
  · rw [txnCount_reset_other db uid r B hne, h8]

theorem processEntries_preserves_Done (now : Int) (entries : List Loan) :
    ∀ (processed : List String) (db0 db : DB) (B : String), B ∈ processed →
      ResetDoneB db0 db B →
      ResetDoneB db0 (processEntries now entries processed db).1 B := by
  induction entries with
  | nil => intro processed db0 db B _ hdone; exact hdone
  | cons l rest ih =>
      intro processed db0 db B hB hdone
      unfold processEntries
      by_cases hin : l.borrowerId ∈ processed
      · rw [if_pos hin]
        exact ih processed db0 db B hB hdone
      · rw [if_neg hin]
        have hne : l.borrowerId ≠ B := fun hh => hin (hh ▸ hB)
        by_cases h14 : 14 ≤ now - l.dueDate
        · rw [if_pos h14]
          exact ih _ db0 _ B (List.mem_cons_of_mem _ hB)
            (reset_preserves_Done db0 db l.borrowerId _ B hne hdone)
        · rw [if_neg h14]
          by_cases h7 : 7 ≤ now - l.dueDate
          · rw [if_pos h7]
            exact ih _ db0 db B (List.mem_cons_of_mem _ hB) hdone
          · rw [if_neg h7]
            exact ih processed db0 db B hB hdone

theorem processEntries_resets (now : Int) (entries : List Loan) :
    ∀ (processed : List String) (db0 db : DB) (B : String), B ∉ processed →
      PreB db0 db B →
      (∀ e ∈ entries, 14 ≤ now - e.dueDate) →
      (∃ e ∈ entries, e.borrowerId = B) →
      ResetDoneB db0 (processEntries now entries processed db).1 B := by
  induction entries with
  | nil =>
      intro processed db0 db B _ _ _ hex
      obtain ⟨e, he, _⟩ := hex
      cases he
  | cons l rest ih =>
      intro processed db0 db B hBnot hpre hall hex
      have htail : ∀ e ∈ rest, 14 ≤ now - e.dueDate :=
        fun e he => hall e (List.mem_cons_of_mem l he)
      unfold processEntries
      by_cases hin : l.borrowerId ∈ processed
      · rw [if_pos hin]
        have hlne : l.borrowerId ≠ B := fun hh => hBnot (hh ▸ hin)
        obtain ⟨e, he, heB⟩ := hex
        rcases List.mem_cons.mp he with rfl | he2
        · exact absurd heB hlne
        · exact ih processed db0 db B hBnot hpre htail ⟨e, he2, heB⟩
      · rw [if_neg hin, if_pos (hall l (List.mem_cons_self l rest))]
        by_cases hlB : l.borrowerId = B
        · rw [hlB]
          exact processEntries_preserves_Done now rest _ db0 _ B
            (List.mem_cons_self B _)
            (hlB ▸ reset_establishes db0 db l.borrowerId _ (hlB ▸ hpre))
        · obtain ⟨e, he, heB⟩ := hex
          rcases List.mem_cons.mp he with rfl | he2
          · exact absurd heB hlB
          · exact ih _ db0 _ B
              (fun hh => (List.mem_cons.mp hh).elim (fun h2 => hlB h2.symm) hBnot)
              (reset_preserves_PreB db0 db l.borrowerId _ B hlB hpre) htail ⟨e, he2, heB⟩

/-- C7 (amended).  For every borrower `B` holding an `'active'` loan
that is *more* than 14 days past due (at least 15 days, matching the
code's strict `due_date < now - 14 days` cutoff) with
`repaid_amount < loan_amount`, one run of the overdue-loan sweep
performs the full punitive reset (`ResetDoneB`): both wallet balances
zeroed, every previously active loan of `B` now `'defaulted'`, no
active business, no pending application, no active investment, no
marketplace listing, and exactly one new `account_reset` transaction
row for `B`; and immediately re-running the sweep selects no loan of
`B` again. -/
theorem claim_C7_overdue_reset (db : DB) (now : Int) (B : String) (l : Loan)
    (hl : l ∈ db.loans) (hB : l.borrowerId = B) (hact : l.status = "active")
    (hdays : 15 ≤ now - l.dueDate) (hrep : l.repaidAmount < l.loanAmount) :
    ResetDoneB db (process_overdue_loans db now).1 B ∧
    ∀ l2 ∈ check_overdue_loans (process_overdue_loans db now).1 now,
      l2.borrowerId ≠ B := by
  have hsel : l ∈ check_overdue_loans db now := by
    unfold check_overdue_loans
    rw [List.mem_filter, decide_eq_true_eq]
    exact ⟨hl, hact, by omega, hrep⟩
  have hall : ∀ e ∈ check_overdue_loans db now, 14 ≤ now - e.dueDate := by
    intro e he
    unfold check_overdue_loans at he
    rw [List.mem_filter, decide_eq_true_eq] at he
    omega
  have hdone : ResetDoneB db (process_overdue_loans db now).1 B :=
    processEntries_resets now (check_overdue_loans db now) [] db db B
      (List.not_mem_nil B) ⟨fun l0 _ _ => by assumption, rfl⟩ hall ⟨l, hsel, hB⟩
  refine ⟨hdone, ?_⟩
  intro l2 hl2 hb2
  unfold check_overdue_loans at hl2
  rw [List.mem_filter, decide_eq_true_eq] at hl2
  exact hdone.2.1 l2 hl2.1 hb2 hl2.2.1

/-- C7, counterexample to the claim as stated: a loan exactly 14 days
past due satisfies the claim's "at least 14 days" hypothesis, but the
code's strict cutoff (`due_date < now - 14 days`) does not select it;
the sweep changes nothing and the borrower's balances are not zeroed. -/
theorem claim_C7_counterexample :
    (⟨1, "11111111111111111", "22222222222222222", 50, .gold, 86, 0, "active"⟩ : Loan) ∈
      boundaryDB.loans ∧
    ((14 : Int) ≤ 100 - 86 ∧ (0:ℚ) < 50) ∧
    process_overdue_loans boundaryDB 100 = (boundaryDB, []) ∧
    ∃ u ∈ (process_overdue_loans boundaryDB 100).1.users,
      u.userId = "22222222222222222" ∧ u.gold = 100 := by
  have hsel : check_overdue_loans boundaryDB 100 = [] := by
    unfold check_overdue_loans
    simp [boundaryDB]
  have hproc : process_overdue_loans boundaryDB 100 = (boundaryDB, []) := by
    show processEntries 100 (check_overdue_loans boundaryDB 100) [] boundaryDB = _
    rw [hsel]
    rfl
  refine ⟨List.mem_cons_self _ _, ⟨by decide, by norm_num⟩, hproc, ?_⟩
  refine ⟨⟨"22222222222222222", 100, 500⟩, ?_, rfl, rfl⟩
  rw [hproc]
  exact List.mem_cons_self _ _

/-- Concrete instance of `claim_C7_overdue_reset`: the loan in
`overdueDB` is 20 days past due. -/
theorem claim_C7_witness :
    ResetDoneB overdueDB (process_overdue_loans overdueDB 100).1 "22222222222222222" ∧
    ∀ l2 ∈ check_overdue_loans (process_overdue_loans overdueDB 100).1 100,
      l2.borrowerId ≠ "22222222222222222" :=
  claim_C7_overdue_reset overdueDB 100 "22222222222222222"
    ⟨1, "11111111111111111", "22222222222222222", 50, .gold, 80, 0, "active"⟩
    (List.mem_cons_self _ _) rfl rfl (by decide) (by norm_num)

/-! ### Bank account creation (claims C9, C10) -/

/-- Typed failures of `create_bank_account`. -/
inductive BankCreateErr
  | invalidAccountType
  | invalidCurrency
  | ratioRequired
  | ratioForbidden
  | accountLimit
  | institutionNotFound
  | databaseError
deriving DecidableEq, Repr

/-- The rejected ratio shapes for a Mudarabah account:
`profit_share_ratio is None or < 0 or > 1`. -/
def badRatio : Option ℚ → Bool
  | none => true
  | some r => decide (r < 0) || decide (1 < r)

/-- `get_user_account_count`: active accounts of one owner at one
institution. -/
def get_user_account_count (db : DB) (uid : String) (instId : Nat) : Nat :=
  (db.bankAccounts.filter fun a =>
    decide (a.ownerId = uid ∧ a.institutionId = instId ∧ a.status = "active")).length

/-- `generate_unique_account_number` draws random digit strings until
one is unused; the model picks a deterministic fresh string (no claim
inspects it). -/
def generate_account_number (db : DB) : String :=
  "ACC" ++ toString db.bankAccounts.length

/-- The `bank_accounts` row `create_bank_account` inserts. -/
def mkBankRow (db : DB) (owner : String) (instId : Nat) (atype : String)
    (c : Currency) (ratio : Option ℚ) : BankAccount :=
  ⟨nextId (db.bankAccounts.map BankAccount.id), generate_account_number db, instId, owner,
    atype, c, 0, ratio, "active"⟩

/-- `create_bank_account`: validations, the institution lookup, then the
three inserts (`bank_accounts`, `bank_account_permissions`,
`bank_ledger`) inside one uncommitted transaction.  The final
`'Account opened'` ledger row has amount 0, which violates the
`bank_ledger` `CHECK (amount > 0)` constraint, so the insert raises and
the whole transaction rolls back with the generic database error. -/
def create_bank_account (db : DB) (owner : String) (instId : Nat)
    (atype currency : String) (ratio : Option ℚ) (createdBy : Option String) :
    DB × Option BankCreateErr :=
  if ¬ (atype = "wadiah" ∨ atype = "mudarabah") then (db, some .invalidAccountType)
  else if ¬ (currency = "gold_dinars" ∨ currency = "silver_dirhams") then
    (db, some .invalidCurrency)
  else if atype = "mudarabah" ∧ badRatio ratio then (db, some .ratioRequired)
  else if atype ≠ "mudarabah" ∧ ratio ≠ none then (db, some .ratioForbidden)
  else if 5 ≤ get_user_account_count db owner instId then (db, some .accountLimit)
  else
    match db.businesses.find? (fun b => decide (b.id = instId ∧
        b.businessType = "islamic_finance" ∧ b.status = "active" ∧ b.licenseCode ≠ none)) with
    | none => (db, some .institutionNotFound)
    | some _ =>
      match insertBankEntry
          { db with
            bankAccounts := db.bankAccounts ++
              [mkBankRow db owner instId atype (currencyOfString currency) ratio],
            bankPerms := db.bankPerms ++
              [⟨nextId (db.bankAccounts.map BankAccount.id), owner, "owner"⟩] }
          ⟨nextId (db.bankAccounts.map BankAccount.id), "deposit", 0,
            currencyOfString currency, "Account opened", none, createdBy.getD owner⟩ with
      | none => (db, some .databaseError)
      | some db3 => (db3, none)

theorem insertBankEntry_zero (db : DB) (e : BankEntry) (h : e.amount = 0) :
    insertBankEntry db e = none := by
  unfold insertBankEntry
  rw [if_neg]
  intro hh
  rw [h] at hh
  exact lt_irrefl 0 hh.1

/-- Every `create_bank_account` call leaves the state unchanged: each
validation failure returns before writing, and the final amount-0
ledger insert violates `CHECK (amount > 0)` so the transaction never
commits. -/
theorem create_bank_account_fst (db : DB) (owner : String) (instId : Nat)
    (atype currency : String) (ratio : Option ℚ) (createdBy : Option String) :
    (create_bank_account db owner instId atype currency ratio createdBy).1 = db ∧
    (create_bank_account db owner instId atype currency ratio createdBy).2 ≠ none := by
  unfold create_bank_account
  split
  next => exact ⟨rfl, by simp⟩
  next =>
  split
  next => exact ⟨rfl, by simp⟩
  next =>
  split
  next => exact ⟨rfl, by simp⟩
  next =>
  split
  next => exact ⟨rfl, by simp⟩
  next =>
  split
  next => exact ⟨rfl, by simp⟩
  next =>
  split
  next => exact ⟨rfl, by simp⟩
  next biz hbiz =>
  split
  next hins => exact ⟨rfl, by simp⟩
  next db3 hins =>
    rw [insertBankEntry_zero _ _ rfl] at hins
    simp at hins

/-- C10.  Under the schema this program itself creates, every
`create_bank_account` call fails and persists nothing: the returned
state is always the incoming one, an error is always reported, and when
all validations pass and the institution exists, the reported error is
the generic database error caused by the amount-0 `'Account opened'`
row violating the `bank_ledger` `CHECK (amount > 0)` constraint. -/
theorem claim_C10_create_always_fails (db : DB) (owner : String) (instId : Nat)
    (atype currency : String) (ratio : Option ℚ) (createdBy : Option String) :
    (create_bank_account db owner instId atype currency ratio createdBy).1 = db ∧
    (create_bank_account db owner instId atype currency ratio createdBy).2 ≠ none ∧
    ((atype = "wadiah" ∨ atype = "mudarabah") →
      (currency = "gold_dinars" ∨ currency = "silver_dirhams") →
      ¬ (atype = "mudarabah" ∧ badRatio ratio = true) →
      ¬ (atype ≠ "mudarabah" ∧ ratio ≠ none) →
      get_user_account_count db owner instId < 5 →
      (∃ biz, db.businesses.find? (fun b => decide (b.id = instId ∧
        b.businessType = "islamic_finance" ∧ b.status = "active" ∧
        b.licenseCode ≠ none)) = some biz) →
      (create_bank_account db owner instId atype currency ratio createdBy).2 =
        some .databaseError) := by
  refine ⟨(create_bank_account_fst db owner instId atype currency ratio createdBy).1,
    (create_bank_account_fst db owner instId atype currency ratio createdBy).2, ?_⟩
  intro htype hcur hratio1 hratio2 hcount hinst
  obtain ⟨biz, hbiz⟩ := hinst
  unfold create_bank_account
  rw [if_neg (not_not_intro htype), if_neg (not_not_intro hcur), if_neg hratio1,
    if_neg hratio2, if_neg (not_le.mpr hcount), hbiz,
    insertBankEntry_zero _ _ rfl]

/-- Concrete state for the bank-creation claims: one licensed active
Islamic-finance institution. -/
def bankDB : DB :=
  ⟨[⟨"11111111111111111", 100, 500⟩], [], [], [], [], [], [],
   [⟨7, "11111111111111111", "islamic_finance", "active", some "LIC1"⟩], [], []⟩

/-- Concrete instance of `claim_C10_create_always_fails`: a fully valid
Wadiah request still fails with the generic database error and changes
nothing. -/
theorem claim_C10_witness :
    (create_bank_account bankDB "11111111111111111" 7 "wadiah" "gold_dinars"
      none none).1 = bankDB ∧
    (create_bank_account bankDB "11111111111111111" 7 "wadiah" "gold_dinars"
      none none).2 = some .databaseError := by
  have h := claim_C10_create_always_fails bankDB "11111111111111111" 7 "wadiah"
    "gold_dinars" none none
  refine ⟨h.1, h.2.2 (Or.inl rfl) (Or.inl rfl) (by decide) (by decide) (by decide) ?_⟩
  exact ⟨⟨7, "11111111111111111", "islamic_finance", "active", some "LIC1"⟩, by decide⟩

/-- The invariant claimed for `bank_accounts` rows: `profit_share_ratio`
is present exactly for `'mudarabah'` accounts. -/
def ratioOk (a : BankAccount) : Prop :=
  a.profitShareRatio ≠ none ↔ a.accountType = "mudarabah"

/-- C9.  `create_bank_account` rejects a Mudarabah request whose ratio
is absent or outside `[0, 1]` and rejects a Wadiah request that supplies
any ratio, in both cases creating nothing; any call preserves the
row invariant that `profit_share_ratio` is non-null iff the account
type is `'mudarabah'`; and the row a validated call attempts to insert
satisfies that invariant. -/
theorem claim_C9_profit_share_ratio (db : DB) (owner : String) (instId : Nat)
    (currency : String) (createdBy : Option String) :
    (∀ ratio, (currency = "gold_dinars" ∨ currency = "silver_dirhams") →
      badRatio ratio = true →
      create_bank_account db owner instId "mudarabah" currency ratio createdBy =
        (db, some .ratioRequired)) ∧
    (∀ r : ℚ, (currency = "gold_dinars" ∨ currency = "silver_dirhams") →
      create_bank_account db owner instId "wadiah" currency (some r) createdBy =
        (db, some .ratioForbidden)) ∧
    (∀ atype ratio, (∀ a ∈ db.bankAccounts, ratioOk a) →
      ∀ a ∈ (create_bank_account db owner instId atype currency ratio createdBy).1.bankAccounts,
        ratioOk a) ∧
    (∀ (atype : String) (ratio : Option ℚ), (atype = "wadiah" ∨ atype = "mudarabah") →
      ¬ (atype = "mudarabah" ∧ badRatio ratio = true) →
      ¬ (atype ≠ "mudarabah" ∧ ratio ≠ none) →
      ratioOk (mkBankRow db owner instId atype (currencyOfString currency) ratio)) := by
  refine ⟨?_, ?_, ?_, ?_⟩
  · intro ratio hcur hbad
    unfold create_bank_account
    rw [if_neg (not_not_intro (Or.inr rfl)), if_neg (not_not_intro hcur),
      if_pos ⟨rfl, hbad⟩]
  · intro r hcur
    unfold create_bank_account
    rw [if_neg (not_not_intro (Or.inl rfl)), if_neg (not_not_intro hcur),
      if_neg (fun hh => absurd hh.1 (by decide)),
      if_pos ⟨by decide, Option.some_ne_none r⟩]
  · intro atype ratio H a ha
    rw [(create_bank_account_fst db owner instId atype currency ratio createdBy).1] at ha
    exact H a ha
  · intro atype ratio htype hbad hforb
    rcases htype with hw | hm
    · subst hw
      have hnone : ratio = none := by
        by_contra hne
        exact hforb ⟨by decide, hne⟩
      subst hnone
      simp [ratioOk, mkBankRow]
    · subst hm
      have hbr : badRatio ratio = false := by
        by_cases hb : badRatio ratio = true
        · exact absurd ⟨rfl, hb⟩ hbad
        · exact Bool.eq_false_iff.mpr hb
      cases ratio with
      | none => simp [badRatio] at hbr
      | some r => simp [ratioOk, mkBankRow]

/-- Concrete instance of `claim_C9_profit_share_ratio`: a Mudarabah
request without a ratio is rejected with nothing created. -/
theorem claim_C9_witness :
    create_bank_account bankDB "11111111111111111" 7 "mudarabah" "gold_dinars"
      none none = (bankDB, some .ratioRequired) :=
  (claim_C9_profit_share_ratio bankDB "11111111111111111" 7 "gold_dinars" none).1
    none (Or.inl rfl) (by decide)

/-- C1.  A successful `/api/pay` transfer of `amt` in currency `cur`
from `a` to `b` decreases `a`'s balance in that currency by exactly
`amt`, increases `b`'s by exactly `amt`, leaves the system-wide total of
the currency unchanged, and appends exactly the two transaction rows
`transfer_send` (owned by `a`, partner `b`) and `transfer_receive`
(owned by `b`, partner `a`), both of amount `amt`.  The nodup hypothesis
is the `users.user_id` PRIMARY KEY. -/
theorem claim_C1_pay_conservation (db db2 : DB) (a b : String) (amt : ℚ) (cur : String)
    (hnd : (db.users.map User.userId).Nodup)
    (h : transfer_money db a b amt cur = (db2, none)) :
    walletBal db2 a (currencyOfString cur) = walletBal db a (currencyOfString cur) - amt ∧
    walletBal db2 b (currencyOfString cur) = walletBal db b (currencyOfString cur) + amt ∧
    totalBal db2 (currencyOfString cur) = totalBal db (currencyOfString cur) ∧
    db2.transactions = db.transactions ++
      [⟨a, "transfer_send", amt, cur, "Minecraft transfer", some b⟩,
       ⟨b, "transfer_receive", amt, cur, "Minecraft transfer", some a⟩] := by
  unfold transfer_money at h
  split at h
  next => simp at h
  next =>
  split at h
  next => simp at h
  next =>
  split at h
  next => simp at h
  next =>
  split at h
  next => simp at h
  next h4 =>
  split at h
  next => simp at h
  next h5 =>
  split at h
  next => simp at h
  next h6 =>
  have hdb : { db with
      users := creditRows (debitRows db.users a (currencyOfString cur) amt)
        b (currencyOfString cur) amt,
      transactions := db.transactions ++
        [⟨a, "transfer_send", amt, cur, "Minecraft transfer", some b⟩,
         ⟨b, "transfer_receive", amt, cur, "Minecraft transfer", some a⟩] } = db2 :=
    congrArg Prod.fst h
  have hd1 : debitCount db.users a (currencyOfString cur) amt = 1 := by
    have hle := debitCount_le_one a (currencyOfString cur) amt db.users hnd
    omega
  have hnd1 : ((debitRows db.users a (currencyOfString cur) amt).map User.userId).Nodup := by
    rw [map_userId_debitRows]; exact hnd
  have hc1 : creditCount (debitRows db.users a (currencyOfString cur) amt) b = 1 := by
    have hle := creditCount_le_one b (debitRows db.users a (currencyOfString cur) amt) hnd1
    omega
  have hba : b ≠ a := fun hh => h4 hh.symm
  subst hdb
  refine ⟨?_, ?_, ?_, rfl⟩
  · show sumFor _ a _ = sumFor db.users a _ - amt
    rw [sumFor_creditRows_ne b a (currencyOfString cur) amt _ h4,
      sumFor_debitRows, hd1]
    push_cast; ring
  · show sumFor _ b _ = sumFor db.users b _ + amt
    rw [sumFor_creditRows, sumFor_debitRows_ne a b (currencyOfString cur) amt _ hba, hc1]
    push_cast; ring
  · show (List.map _ _).sum = (List.map _ _).sum
    rw [sum_creditRows, sum_debitRows, hd1, hc1]
    push_cast; ring

theorem claim_C1_witness :
    walletBal payDB2 "11111111111111111" (currencyOfString "gold_dinars") =
      walletBal payDB "11111111111111111" (currencyOfString "gold_dinars") - 30 ∧
    walletBal payDB2 "22222222222222222" (currencyOfString "gold_dinars") =
      walletBal payDB "22222222222222222" (currencyOfString "gold_dinars") + 30 ∧
    totalBal payDB2 (currencyOfString "gold_dinars") = totalBal payDB (currencyOfString "gold_dinars") ∧
    payDB2.transactions = payDB.transactions ++
      [⟨"11111111111111111", "transfer_send", 30, "gold_dinars", "Minecraft transfer",
        some "22222222222222222"⟩,
       ⟨"22222222222222222", "transfer_receive", 30, "gold_dinars", "Minecraft transfer",
        some "11111111111111111"⟩] :=
  claim_C1_pay_conservation payDB payDB2 "11111111111111111" "22222222222222222" 30 "gold_dinars"
    (by decide)
    (by
      have hva : validate_user_id "11111111111111111" = true := by decide
      have hvb : validate_user_id "22222222222222222" = true := by decide
      simp [transfer_money, hva, hvb, validate_amount, currencyOfString,
        debitCount, debitRows, creditCount, creditRows, bal, setBal, payDB, payDB2]
      repeat first | norm_num | simp
      decide)

/-- C2.  A `/api/pay` request that passes input validation but asks for
more than the sender's balance in the requested currency fails with the
insufficient-funds error (`'Insufficient funds or user not found'`,
HTTP 400) and returns the state unchanged: the guarded debit `UPDATE`
matches no row and the transaction is rolled back. -/
theorem claim_C2_pay_insufficient_noop (db : DB) (a b : String) (amt : ℚ) (cur : String)
    (hnd : (db.users.map User.userId).Nodup)
    (hva : validate_user_id a = true) (hvb : validate_user_id b = true)
    (ham : validate_amount amt = true)
    (hcur : cur = "gold_dinars" ∨ cur = "silver_dirhams")
    (hab : a ≠ b)
    (hbal : walletBal db a (currencyOfString cur) < amt) :
    transfer_money db a b amt cur = (db, some .insufficientFunds) := by
  have h5 : debitCount db.users a (currencyOfString cur) amt = 0 :=
    debitCount_eq_zero_of_lt a (currencyOfString cur) amt db.users hnd hbal
  unfold transfer_money
  rw [if_neg (not_not_intro (Bool.and_eq_true _ _ |>.mpr ⟨hva, hvb⟩)),
    if_neg (not_not_intro ham), if_neg (not_not_intro hcur), if_neg hab, if_pos h5]

/-- Concrete instance of `claim_C2_pay_insufficient_noop`. -/
theorem claim_C2_witness :
    transfer_money payDB "11111111111111111" "22222222222222222" 200 "gold_dinars" =
      (payDB, some .insufficientFunds) :=
  claim_C2_pay_insufficient_noop payDB "11111111111111111" "22222222222222222" 200 "gold_dinars"
    (by decide) (by decide) (by decide)
    (by norm_num [validate_amount])
    (by decide) (by decide)
    (by norm_num [walletBal, sumFor, currencyOfString, bal, payDB])

/-- C4.  In the `/api/pay` handler, when the debit side succeeds (the
sender exists with sufficient balance) but the credit side fails because
no row for the recipient exists, the handler rolls the transaction back
and reports an error: the returned state is exactly the incoming one, so
neither the sender's balance nor the transaction table changes. -/
theorem claim_C4_pay_rollback (db : DB) (a b : String) (amt : ℚ) (cur : String)
    (hnd : (db.users.map User.userId).Nodup)
    (hva : validate_user_id a = true) (hvb : validate_user_id b = true)
    (ham : validate_amount amt = true)
    (hcur : cur = "gold_dinars" ∨ cur = "silver_dirhams")
    (hab : a ≠ b)
    (hbal : amt ≤ walletBal db a (currencyOfString cur))
    (hmiss : ∀ u ∈ db.users, u.userId ≠ b) :
    transfer_money db a b amt cur = (db, some .recipientNotFound) := by
  have hpos : 0 < amt := validate_amount_pos ham
  have h5 : debitCount db.users a (currencyOfString cur) amt ≠ 0 :=
    debitCount_ne_zero_of_le a (currencyOfString cur) amt db.users hnd hpos hbal
  have hbnot : b ∉ (debitRows db.users a (currencyOfString cur) amt).map User.userId := by
    rw [map_userId_debitRows]
    intro hmem
    obtain ⟨u, hu, hub⟩ := List.mem_map.mp hmem
    exact hmiss u hu hub
  have h6 : creditCount (debitRows db.users a (currencyOfString cur) amt) b = 0 :=
    creditCount_of_not_mem b _ hbnot
  unfold transfer_money
  rw [if_neg (not_not_intro (Bool.and_eq_true _ _ |>.mpr ⟨hva, hvb⟩)),
    if_neg (not_not_intro ham), if_neg (not_not_intro hcur), if_neg hab, if_neg h5, if_pos h6]

/-- Concrete instance of `claim_C4_pay_rollback`: the recipient id has
no `users` row. -/
theorem claim_C4_witness :
    transfer_money payDB "11111111111111111" "33333333333333333" 30 "gold_dinars" =
      (payDB, some .recipientNotFound) :=
  claim_C4_pay_rollback payDB "11111111111111111" "33333333333333333" 30 "gold_dinars"
    (by decide) (by decide) (by decide)
    (by norm_num [validate_amount])
    (by decide) (by decide)
    (by norm_num [walletBal, sumFor, currencyOfString, bal, payDB])
    (by decide)

end EconomyBot
